import Mathlib

/-!
Verification development for the agent orchestration and handoff subsystem of the
`agno-zendesk` repository.  The definitions below are a shallow embedding of:

  * `src/backend/agent_registry.py`  (agent-type registry, handoff triggers, instances),
  * `src/backend/agent_handoff.py`   (handoff manager, session state machine),
  * `src/agno_zendesk/multi_agent/core/agent_interface.py` (pipeline context),
  * `src/agno_zendesk/multi_agent/orchestration/orchestrator.py` (workflow executor),
  * `src/agno_zendesk/multi_agent/registry/agent_registry.py` (pipeline agent registry).

Modelling conventions:
  * Python dicts become insertion-ordered association lists with unique keys
    (`dictLookup` / `dictInsert` / `dictErase` below mirror `d[k]`, `d[k] = v`, `del d[k]`).
  * `raise ValueError(msg)` becomes `Except.error msg`; stateful methods take and return
    the state they mutate.
  * Python truthiness of optional strings and lists (`if x:`) is `pyTruthyStr` /
    `pyTruthyList`: `None`, `""` and `[]` are falsy.
  * Opaque runtime values (agent callables, the `importlib` condition-function resolver,
    the `re` regex engine) are function-valued fields or explicit function parameters;
    timestamps (`time.time()` / `datetime.now()`) are `Nat` parameters named `now`, and
    purely cosmetic fields (log messages, `created_at`, `author`, `rate_limits`,
    `input_format`, `output_format`, `agent_states`) are elided: no verified operation
    reads them.
-/

namespace AgnoZendesk

/-- Python truthiness of an optional string: `None` and `""` are falsy. -/
def pyTruthyStr : Option String → Bool
  | none => false
  | some s => s ≠ ""

/-- Python truthiness of an optional list: `None` and `[]` are falsy. -/
def pyTruthyList {α : Type} : Option (List α) → Bool
  | none => false
  | some l => !l.isEmpty

/-- Association-list model of `d.get(k)` / `d[k]` on an insertion-ordered Python dict. -/
def dictLookup {α : Type} (l : List (String × α)) (k : String) : Option α :=
  (l.find? (fun p => p.1 = k)).map (·.2)

/-- Association-list model of `d[k] = v`: overwriting keeps the key's original position,
a fresh key is appended at the end, as in a Python dict. -/
def dictInsert {α : Type} (l : List (String × α)) (k : String) (v : α) : List (String × α) :=
  if (dictLookup l k).isSome then
    l.map (fun p => if p.1 = k then (k, v) else p)
  else
    l ++ [(k, v)]

/-- Association-list model of `d.pop(k)`. -/
def dictErase {α : Type} (l : List (String × α)) (k : String) : List (String × α) :=
  l.filter (fun p => p.1 ≠ k)

/-- `HandoffTrigger` (src/backend/agent_registry.py, class HandoffTrigger): the data held
by a constructed pydantic model.  `condition_function`, `keyword_patterns` and
`intent_names` keep their `Optional` types; `priority` defaults to 1. -/
structure HandoffTrigger where
  target_agent_id : String
  description : String
  priority : Int := 1
  condition_function : Option String := none
  keyword_patterns : Option (List String) := none
  intent_names : Option (List String) := none
deriving DecidableEq

/-- The `values` dict visible to a pydantic field validator: the condition fields
validated so far (each `none` when absent or defaulted). -/
structure TriggerValues where
  condition_function : Option String
  keyword_patterns : Option (List String)
  intent_names : Option (List String)

/-- The check performed by `HandoffTrigger.validate_trigger_condition`
(src/backend/agent_registry.py lines 59-64): it consults only `values`
(previously validated fields), never the value `v` being validated. -/
def triggerConditionCheckFails (values : TriggerValues) : Bool :=
  !pyTruthyStr values.condition_function
    && !pyTruthyList values.keyword_patterns
    && !pyTruthyList values.intent_names

/-- Construction of a `HandoffTrigger` under pydantic v1 field-validation semantics
(src/backend/agent_registry.py lines 42-64).  Fields are validated in declaration order
(`target_agent_id`, `description`, `priority`, `condition_function`, `keyword_patterns`,
`intent_names`); a validator runs only when its field is supplied (an argument of `none`
means the field was not supplied and its default is used); `values` holds previously
validated fields only, never the field currently being validated. -/
def mkHandoffTrigger (target_agent_id description : String) (priority : Option Int)
    (condition_function : Option String) (keyword_patterns : Option (List String))
    (intent_names : Option (List String)) : Except String HandoffTrigger :=
  -- validate_priority: runs only when `priority` was supplied
  if (priority.map (fun p => decide (p < 0))).getD false then
    .error "Priority must be a positive integer"
  else
    let priorityVal := priority.getD 1
    -- condition_function field: `values` holds no condition field yet
    let valuesAtCF : TriggerValues := ⟨none, none, none⟩
    if condition_function.isSome && triggerConditionCheckFails valuesAtCF then
      .error "At least one trigger condition must be specified"
    else
      -- keyword_patterns field: `values` now holds condition_function
      let valuesAtKP : TriggerValues := ⟨condition_function, none, none⟩
      if keyword_patterns.isSome && triggerConditionCheckFails valuesAtKP then
        .error "At least one trigger condition must be specified"
      else
        -- intent_names field: `values` now holds the two previous condition fields
        let valuesAtIN : TriggerValues := ⟨condition_function, keyword_patterns, none⟩
        if intent_names.isSome && triggerConditionCheckFails valuesAtIN then
          .error "At least one trigger condition must be specified"
        else
          .ok { target_agent_id := target_agent_id, description := description,
                priority := priorityVal, condition_function := condition_function,
                keyword_patterns := keyword_patterns, intent_names := intent_names }

/-- `AgentMetadata` (src/backend/agent_registry.py, class AgentMetadata), restricted to
the fields the verified operations read: `id`, `handoff_triggers`, `priority`,
`requires`, `singleton` (defaults as in the source).  The remaining fields
(`name`, `description`, `version`, `capabilities`, formats, `author`, `rate_limits`,
`configurable_params`) are opaque configuration data never consulted by the registry,
handoff or session logic verified here. -/
structure AgentMetadata where
  id : String
  handoff_triggers : List HandoffTrigger := []
  priority : Int := 1
  requires : List String := []
  singleton : Bool := true
deriving DecidableEq

/-- The chat-message records appended to a session's `message_history`:
`{"role": ..., "content": ..., "timestamp": ...}`. -/
structure ChatMessage where
  role : String
  content : String
  timestamp : Nat
deriving DecidableEq

/-- `HandoffContext` (src/backend/agent_handoff.py, class HandoffContext). -/
structure HandoffContext where
  source_agent_id : String
  target_agent_id : String
  session_id : String
  reason : String
  timestamp : Nat
  message_history : List ChatMessage := []
  collected_data : List (String × String) := []
  metadata : List (String × String) := []
deriving DecidableEq

/-- The context dict built by `Session.handle_message` and consumed by
`AgentRegistry.evaluate_handoff_triggers` and agents' `process_message`
(keys: `message`, `session_id`, `session_data`, `message_history`, and
optionally `intents` from `additional_context` and `handoff_context` after a handoff).
`evaluate_handoff_triggers` tests key presence (`'message' in context`), hence the
`Option` fields. -/
structure CtxDict where
  message : Option String := none
  session_id : Option String := none
  session_data : Option (List (String × String)) := none
  message_history : Option (List ChatMessage) := none
  intents : Option (List String) := none
  handoff_context : Option HandoffContext := none

/-- The result dict a session-flavor agent's `process_message` returns, and equally the
response dict `handle_message` / `perform_handoff` return (`response.update(...)` merges
one into the other).  An `Option` field is `none` when the key is absent. -/
structure RespDict where
  message : Option String := none
  data : Option (List (String × String)) := none
  handoff_to : Option String := none
  handoff_reason : Option String := none
  handoff : Option (Option String × String × String) := none
  error : Option String := none

/-- `response.update(handoff_response)` (src/backend/agent_handoff.py line 399):
keys present in `hr` overwrite those of `base`. -/
def respUpdate (base hr : RespDict) : RespDict :=
  { message := hr.message.orElse (fun _ => base.message),
    data := hr.data.orElse (fun _ => base.data),
    handoff_to := hr.handoff_to.orElse (fun _ => base.handoff_to),
    handoff_reason := hr.handoff_reason.orElse (fun _ => base.handoff_reason),
    handoff := hr.handoff.orElse (fun _ => base.handoff),
    error := hr.error.orElse (fun _ => base.error) }

/-- The behavior of a live session-flavor agent instance: its `process_message`
method, which may raise. -/
structure AgentBehavior where
  process_message : String → CtxDict → Except String RespDict

/-- An agent class stored at registration: calling it with `**config.params`
constructs a behavior (construction may raise, wrapped by `instantiate_agent`). -/
def AgentClass : Type := List (String × String) → Except String AgentBehavior

/-- A stored live instance: the source attaches `_agent_metadata` and `_instance_id`
to the constructed object (src/backend/agent_registry.py lines 278-280). -/
structure InstanceRec where
  agent_metadata : AgentMetadata
  instance_id : String
  behavior : AgentBehavior

/-- What the registry stores per agent type.  The source keeps two dicts,
`_agent_types` and `_agent_classes`, always updated in lockstep under the same key;
they are modelled as one dict of pairs. -/
structure AgentTypeEntry where
  metadata : AgentMetadata
  cls : AgentClass

/-- `AgentConfig` (src/backend/agent_registry.py, class AgentConfig). -/
structure AgentConfig where
  agent_id : String
  instance_id : Option String := none
  params : List (String × String) := []

/-- `AgentRegistry` state (src/backend/agent_registry.py): registered agent types
(with their classes) and live instances, both insertion-ordered dicts. -/
structure RegistryB where
  agent_types : List (String × AgentTypeEntry) := []
  agent_instances : List (String × InstanceRec) := []

/-- `AgentRegistry.get_agent_type` (pure lookup). -/
def get_agent_type (r : RegistryB) (agent_id : String) : Option AgentMetadata :=
  (dictLookup r.agent_types agent_id).map (·.metadata)

/-- Whether one trigger matches the context: the body of the `for trigger in triggers`
loop of `AgentRegistry.evaluate_handoff_triggers` (src/backend/agent_registry.py
lines 531-561).  `condEval name ctx` is the outcome of resolving the named condition
function via `importlib` and invoking it (`none` models an exception, in which case the
source `continue`s, i.e. treats the trigger as a non-match); `reSearch pat s` is
`re.search(pat, s, re.IGNORECASE) is not None`.  The `if/elif` chain tests Python
truthiness of each condition field and, for patterns/intents, key presence. -/
def triggerMatches (condEval : String → CtxDict → Option Bool)
    (reSearch : String → String → Bool) (t : HandoffTrigger) (ctx : CtxDict) : Bool :=
  if pyTruthyStr t.condition_function then
    match condEval (t.condition_function.getD "") ctx with
    | some b => b
    | none => false
  else if pyTruthyList t.keyword_patterns && ctx.message.isSome then
    (t.keyword_patterns.getD []).any (fun pat => reSearch pat (ctx.message.getD ""))
  else if pyTruthyList t.intent_names && ctx.intents.isSome then
    (t.intent_names.getD []).any (fun i => (ctx.intents.getD []).contains i)
  else
    false

/-- Stable insertion keeping higher priorities first; an element is placed before the
first existing element of less-or-equal priority, so earlier-registered triggers
precede later ones of equal priority. -/
def insertByPriority (t : HandoffTrigger) : List HandoffTrigger → List HandoffTrigger
  | [] => [t]
  | u :: us => if u.priority ≤ t.priority then t :: u :: us else u :: insertByPriority t us

/-- `sorted(metadata.handoff_triggers, key=lambda t: -t.priority)`
(src/backend/agent_registry.py line 529): Python's `sorted` is a stable descending
sort by priority, realized here as a stable insertion sort. -/
def sortByPriorityDesc : List HandoffTrigger → List HandoffTrigger
  | [] => []
  | t :: ts => insertByPriority t (sortByPriorityDesc ts)

/-- `AgentRegistry.evaluate_handoff_triggers` (src/backend/agent_registry.py
lines 511-567): unknown agent yields `None`; otherwise the triggers are sorted by
descending priority (stably) and the loop returns the target of the first trigger that
matches, or `None` when none matches. -/
def evaluate_handoff_triggers (condEval : String → CtxDict → Option Bool)
    (reSearch : String → String → Bool) (r : RegistryB) (agent_id : String)
    (ctx : CtxDict) : Option String :=
  match get_agent_type r agent_id with
  | none => none
  | some metadata =>
    ((sortByPriorityDesc metadata.handoff_triggers).find?
      (fun t => triggerMatches condEval reSearch t ctx)).map (·.target_agent_id)

/-- The `requires` edges out of `k`: the requires list of the registered agent stored
under key `k`, or empty when `k` is not a registered key. -/
def requiresOf (types : List (String × AgentTypeEntry)) (k : String) : List String :=
  match dictLookup types k with
  | some e => e.metadata.requires
  | none => []

/-- The set of registered agent ids (dict keys). -/
def keysFinset (types : List (String × AgentTypeEntry)) : Finset String :=
  (types.map (·.1)).toFinset

/-- Termination measure for the worklist loop of `_validate_agent_metadata`: every
iteration pops one element of `to_visit`, and a key's requires list is pushed at most
once (only when the key is first visited). -/
def walkMeasure (types : List (String × AgentTypeEntry))
    (visited to_visit : List String) : Nat :=
  (keysFinset types \ visited.toFinset).sum (fun k => 1 + (requiresOf types k).length)
    + to_visit.length

lemma mem_keysFinset_of_dictLookup {types : List (String × AgentTypeEntry)} {a : String}
    {e : AgentTypeEntry} (h : dictLookup types a = some e) : a ∈ keysFinset types := by
  unfold dictLookup at h
  rcases Option.map_eq_some'.mp h with ⟨p, hp, _⟩
  have hmem := List.mem_of_find?_eq_some hp
  have hkey : p.1 = a := by
    have := List.find?_some hp
    exact of_decide_eq_true this
  subst hkey
  simp [keysFinset]
  exact ⟨p.2, hmem⟩

lemma not_mem_keysFinset_of_dictLookup_none {types : List (String × AgentTypeEntry)}
    {a : String} (h : dictLookup types a = none) : a ∉ keysFinset types := by
  intro hmem
  simp [keysFinset] at hmem
  rcases hmem with ⟨b, hb⟩
  have : (types.find? (fun p => p.1 = a)).isSome := by
    rw [List.find?_isSome]
    exact ⟨(a, b), hb, by simp⟩
  unfold dictLookup at h
  rw [Option.map_eq_none'] at h
  rw [h] at this
  simp at this

lemma ne_nil_of_getLast?_eq_some {l : List String} {a : String}
    (h : l.getLast? = some a) : l ≠ [] := by
  intro he; subst he; simp at h

lemma length_dropLast_add_one {l : List String} (h : l ≠ []) :
    l.dropLast.length + 1 = l.length := by
  have h1 := List.length_dropLast l
  have h2 : 0 < l.length := List.length_pos.mpr h
  omega

/-- The circular-dependency worklist of `AgentRegistry._validate_agent_metadata`
(src/backend/agent_registry.py lines 175-191): pop the last element of `to_visit`
(`to_visit.pop()`); raise (`true`) when it is the agent's own id; skip already visited
ids; otherwise mark visited and, when the id is a registered type, push its `requires`
list (`to_visit.extend(...)`).  Returns `true` exactly when the loop raises the
circular-dependency `ValueError`. -/
def walkRaises (types : List (String × AgentTypeEntry)) (selfId : String)
    (visited to_visit : List String) : Bool :=
  match hlast : to_visit.getLast? with
  | none => false
  | some a =>
    if a = selfId then true
    else if a ∈ visited then
      walkRaises types selfId visited to_visit.dropLast
    else
      match hl : dictLookup types a with
      | some e =>
        walkRaises types selfId (a :: visited) (to_visit.dropLast ++ e.metadata.requires)
      | none =>
        walkRaises types selfId (a :: visited) to_visit.dropLast
termination_by walkMeasure types visited to_visit
decreasing_by
  · have hne := ne_nil_of_getLast?_eq_some hlast
    have := length_dropLast_add_one hne
    unfold walkMeasure
    omega
  · have hne := ne_nil_of_getLast?_eq_some hlast
    have hlen := length_dropLast_add_one hne
    unfold walkMeasure
    have hK : a ∈ keysFinset types := mem_keysFinset_of_dictLookup hl
    have hmemdiff : a ∈ keysFinset types \ visited.toFinset := by
      rw [Finset.mem_sdiff]
      exact ⟨hK, by simpa using (by assumption : ¬ a ∈ visited)⟩
    have hset : keysFinset types \ (a :: visited).toFinset
        = (keysFinset types \ visited.toFinset).erase a := by
      rw [List.toFinset_cons, Finset.sdiff_insert]
    rw [hset]
    have hsum := Finset.add_sum_erase (keysFinset types \ visited.toFinset)
      (fun k => 1 + (requiresOf types k).length) hmemdiff
    have hreq : requiresOf types a = e.metadata.requires := by
      unfold requiresOf; rw [hl]
    simp only [hreq] at hsum
    simp only [List.length_append]
    omega
  · have hne := ne_nil_of_getLast?_eq_some hlast
    have hlen := length_dropLast_add_one hne
    unfold walkMeasure
    have hK : a ∉ keysFinset types := not_mem_keysFinset_of_dictLookup_none hl
    have hset : keysFinset types \ (a :: visited).toFinset
        = keysFinset types \ visited.toFinset := by
      rw [List.toFinset_cons, Finset.sdiff_insert, Finset.erase_eq_of_not_mem]
      intro hmem
      exact hK (Finset.mem_sdiff.mp hmem).1
    rw [hset]
    omega

/-- `AgentRegistry._validate_agent_metadata` (src/backend/agent_registry.py
lines 165-196): first the circular-dependency worklist starting from
`metadata.requires`, then the self-handoff check over `metadata.handoff_triggers`. -/
def validate_agent_metadata (types : List (String × AgentTypeEntry))
    (metadata : AgentMetadata) : Except String Unit :=
  if walkRaises types metadata.id [] metadata.requires then
    .error ("Circular dependency detected for agent " ++ metadata.id)
  else
    match metadata.handoff_triggers.find? (fun t => t.target_agent_id = metadata.id) with
    | some _ => .error ("Agent " ++ metadata.id ++ " cannot hand off to itself")
    | none => .ok ()

/-- `AgentRegistry.register_agent_type` (src/backend/agent_registry.py lines 145-163):
validate, then store metadata and class under `metadata.id` (overwrite allowed; the
overwrite warning is a log line). -/
def register_agent_type (r : RegistryB) (metadata : AgentMetadata) (agent_class : AgentClass) :
    Except String RegistryB :=
  match validate_agent_metadata r.agent_types metadata with
  | .error e => .error e
  | .ok _ =>
    .ok { r with agent_types :=
            dictInsert r.agent_types metadata.id ⟨metadata, agent_class⟩ }

/-- `AgentRegistry.unregister_agent_type` (src/backend/agent_registry.py lines 198-230):
`false` when unknown; otherwise removes all instances whose attached metadata id matches
and drops the type (the dependency warning is a log line). -/
def unregister_agent_type (r : RegistryB) (agent_id : String) : Bool × RegistryB :=
  if (dictLookup r.agent_types agent_id).isNone then
    (false, r)
  else
    (true,
      { agent_types := dictErase r.agent_types agent_id,
        agent_instances :=
          r.agent_instances.filter (fun p => p.2.agent_metadata.id ≠ agent_id) })

/-- `AgentRegistry.instantiate_agent` (src/backend/agent_registry.py lines 236-289).
Unknown type raises; for a singleton type with an existing instance of that type the
first such instance id (dict insertion order) is returned with no state change;
otherwise the instance id is taken from the config (Python-truthy) or generated,
an id collision raises, the class is called with the config params (a constructor
exception is wrapped), and the instance is stored tagged with its metadata. -/
def instantiate_agent (r : RegistryB) (config : AgentConfig) :
    Except String (String × RegistryB) :=
  let agent_id := config.agent_id
  match dictLookup r.agent_types agent_id with
  | none => .error ("Agent type " ++ agent_id ++ " is not registered")
  | some entry =>
    let metadata := entry.metadata
    let existing :=
      if metadata.singleton then
        r.agent_instances.find? (fun p => p.2.agent_metadata.id = agent_id)
      else none
    match existing with
    | some p => .ok (p.1, r)
    | none =>
      let instance_id :=
        if pyTruthyStr config.instance_id then config.instance_id.getD ""
        else agent_id ++ "_" ++ toString (r.agent_instances.length + 1)
      if (dictLookup r.agent_instances instance_id).isSome then
        .error ("Agent instance ID " ++ instance_id ++ " is already in use")
      else
        match entry.cls config.params with
        | .error e => .error ("Failed to instantiate agent " ++ agent_id ++ ": " ++ e)
        | .ok behavior =>
          .ok (instance_id,
            { r with agent_instances :=
                r.agent_instances ++
                  [(instance_id,
                    { agent_metadata := metadata, instance_id := instance_id,
                      behavior := behavior })] })

/-- `AgentRegistry.get_agent_instance` (src/backend/agent_registry.py lines 291-307). -/
def get_agent_instance (r : RegistryB) (instance_id : String) : Except String InstanceRec :=
  match dictLookup r.agent_instances instance_id with
  | none => .error ("Agent instance " ++ instance_id ++ " does not exist")
  | some inst => .ok inst

/-- `Session` state (src/backend/agent_handoff.py lines 176-208). -/
structure Session where
  session_id : String
  active_agent_id : Option String := none
  active_agent_instance_id : Option String := none
  data : List (String × String) := []
  message_history : List ChatMessage := []
deriving DecidableEq

/-- The state a `Session`'s methods read and mutate: the session itself, the shared
registry, and the handoff manager's per-session audit log `handoff_history`. -/
structure SessState where
  session : Session
  registry : RegistryB
  handoff_history : List (String × List HandoffContext) := []

/-- `HandoffManager.initiate_handoff` (src/backend/agent_handoff.py lines 50-107):
validates that source and target agent types are registered (raising otherwise),
builds a `HandoffContext`, and appends it to the session's audit log. -/
def initiate_handoff (r : RegistryB) (history : List (String × List HandoffContext))
    (source_agent_id target_agent_id session_id reason : String)
    (message_history : List ChatMessage) (collected_data : List (String × String))
    (now : Nat) : Except String (HandoffContext × List (String × List HandoffContext)) :=
  if (get_agent_type r source_agent_id).isNone then
    .error ("Source agent not registered: " ++ source_agent_id)
  else if (get_agent_type r target_agent_id).isNone then
    .error ("Target agent not registered: " ++ target_agent_id)
  else
    let context : HandoffContext :=
      { source_agent_id := source_agent_id, target_agent_id := target_agent_id,
        session_id := session_id, reason := reason, timestamp := now,
        message_history := message_history, collected_data := collected_data,
        metadata := [] }
    let sofar := (dictLookup history session_id).getD []
    .ok (context, dictInsert history session_id (sofar ++ [context]))

/-- `HandoffManager.evaluate_handoff` (src/backend/agent_handoff.py lines 134-161):
runs the registry's trigger evaluation and, on a (Python-truthy) target, looks up the
description of the first trigger with that target as the reason. -/
def evaluate_handoff (condEval : String → CtxDict → Option Bool)
    (reSearch : String → String → Bool) (r : RegistryB) (current_agent_id : String)
    (ctx : CtxDict) : Bool × Option String × Option String :=
  match evaluate_handoff_triggers condEval reSearch r current_agent_id ctx with
  | none => (false, none, none)
  | some target =>
    if target = "" then (false, none, none)
    else
      let reason :=
        match get_agent_type r current_agent_id with
        | some metadata =>
          match metadata.handoff_triggers.find? (fun t => t.target_agent_id = target) with
          | some t => t.description
          | none => "Handoff trigger matched"
        | none => "Handoff trigger matched"
      (true, some target, some reason)

/-- `Session.get_active_agent` (src/backend/agent_handoff.py lines 230-262): raises when
no (Python-truthy) active agent id is set; returns the cached instance when the cached
instance id resolves; otherwise instantiates the active agent type with
`params={"session_id": ...}`, caches the new instance id and returns the instance
(instantiation and lookup failures are wrapped in one message).  An error result models
the raised `ValueError`; the source's in-place reset of a stale cached id on the path
that then fails is unobservable in the error value. -/
def get_active_agent (st : SessState) : Except String (InstanceRec × SessState) :=
  if !pyTruthyStr st.session.active_agent_id then
    .error "No active agent set for this session"
  else
    let aid := st.session.active_agent_id.getD ""
    let cached :=
      if pyTruthyStr st.session.active_agent_instance_id then
        dictLookup st.registry.agent_instances (st.session.active_agent_instance_id.getD "")
      else none
    match cached with
    | some inst => .ok (inst, st)
    | none =>
      let config : AgentConfig :=
        { agent_id := aid, instance_id := none,
          params := [("session_id", st.session.session_id)] }
      match instantiate_agent st.registry config with
      | .error e => .error ("Failed to instantiate agent " ++ aid ++ ": " ++ e)
      | .ok (iid, r') =>
        match get_agent_instance r' iid with
        | .error e => .error ("Failed to instantiate agent " ++ aid ++ ": " ++ e)
        | .ok inst =>
          .ok (inst,
            { st with registry := r',
                      session := { st.session with active_agent_instance_id := some iid } })

/-- Append one chat message to the session's history. -/
def appendHistory (st : SessState) (role content : String) (now : Nat) : SessState :=
  { st with session := { st.session with message_history :=
      st.session.message_history ++ [{ role := role, content := content, timestamp := now }] } }

/-- `Session.perform_handoff` (src/backend/agent_handoff.py lines 337-417).  With no
(Python-truthy) active agent: initial assignment, no audit record.  Otherwise: one
`initiate_handoff` (which appends the audit record or raises), then the active agent id
is switched to the target — the cached `active_agent_instance_id` is NOT touched by the
source (only `set_active_agent`, lines 210-228, resets it) — and a truthy `last_message`
is processed by whatever `get_active_agent` now returns, with failures of that step
caught into a default reply plus `error`. -/
def perform_handoff (st : SessState) (target_agent_id reason : String)
    (last_message : Option String) (now : Nat) : Except String (RespDict × SessState) :=
  if !pyTruthyStr st.session.active_agent_id then
    .ok ({ message := some "Let me help you with that.",
           handoff := some (none, target_agent_id, reason) },
         { st with session := { st.session with active_agent_id := some target_agent_id } })
  else
    let source := st.session.active_agent_id.getD ""
    match initiate_handoff st.registry st.handoff_history source target_agent_id
        st.session.session_id reason st.session.message_history st.session.data now with
    | .error e => .error e
    | .ok (context, history') =>
      let st1 : SessState :=
        { st with handoff_history := history',
                  session := { st.session with active_agent_id := some target_agent_id } }
      let response : RespDict := { handoff := some (some source, target_agent_id, reason) }
      if pyTruthyStr last_message then
        match get_active_agent st1 with
        | .error e =>
          .ok ({ response with
                  message := some "I'll help you with that.",
                  error := some e }, st1)
        | .ok (inst, st2) =>
          let msgCtx : CtxDict :=
            { message := last_message, session_id := some st2.session.session_id,
              session_data := some st2.session.data,
              message_history := some st2.session.message_history,
              handoff_context := some context }
          match inst.behavior.process_message (last_message.getD "") msgCtx with
          | .error e =>
            .ok ({ response with
                    message := some "I'll help you with that.",
                    error := some e }, st2)
          | .ok handoff_response =>
            let response' := respUpdate response handoff_response
            let st3 :=
              if handoff_response.message.isSome then
                appendHistory st2 "assistant" (handoff_response.message.getD "") now
              else st2
            .ok (response', st3)
      else
        .ok ({ response with message := some "I'll help you with that." }, st1)

/-- The context dict `handle_message` builds (src/backend/agent_handoff.py
lines 282-288): message, session id, session data and (a reference to) the message
history, merged with the additional context, of which only an `intents` entry is ever
consumed downstream. -/
def handleMessageCtx (st : SessState) (message : String)
    (additional_intents : Option (List String)) : CtxDict :=
  { message := some message, session_id := some st.session.session_id,
    session_data := some st.session.data,
    message_history := some st.session.message_history,
    intents := additional_intents }

/-- `Session.handle_message` (src/backend/agent_handoff.py lines 264-335).  The
pre-handoff evaluation runs against the current agent; on a match `perform_handoff`
replaces normal processing (and its exceptions propagate).  Otherwise
`get_active_agent` is resolved OUTSIDE the try block — its exceptions propagate to the
caller — the user message is appended, and only `process_message`, the history append
and a result-requested `perform_handoff` run inside the try whose handler returns the
fallback reply with an `error` field.  The context dict passed to `process_message`
aliases the live `message_history` list, which by call time contains the user
message. -/
def handle_message (condEval : String → CtxDict → Option Bool)
    (reSearch : String → String → Bool) (st : SessState) (message : String)
    (additional_intents : Option (List String)) (now : Nat) :
    Except String (RespDict × SessState) :=
  if !pyTruthyStr st.session.active_agent_id then
    .error "No active agent set for this session"
  else
    let aid := st.session.active_agent_id.getD ""
    let context : CtxDict := handleMessageCtx st message additional_intents
    let ev := evaluate_handoff condEval reSearch st.registry aid context
    if ev.1 && pyTruthyStr ev.2.1 then
      perform_handoff st (ev.2.1.getD "") (ev.2.2.getD "") (some message) now
    else
      match get_active_agent st with
      | .error e => .error e
      | .ok (inst, st1) =>
        let st2 := appendHistory st1 "user" message now
        match inst.behavior.process_message message
            { context with message_history := some st2.session.message_history } with
        | .error e =>
          .ok ({ message := some "Sorry, there was an error processing your request.",
                 error := some e }, st2)
        | .ok response =>
          let st3 :=
            if response.message.isSome then
              appendHistory st2 "assistant" (response.message.getD "") now
            else st2
          if pyTruthyStr response.handoff_to then
            match perform_handoff st3 (response.handoff_to.getD "")
                (response.handoff_reason.getD "Agent requested handoff") (some message) now with
            | .ok res => .ok res
            | .error e =>
              .ok ({ message := some "Sorry, there was an error processing your request.",
                     error := some e }, st3)
          else
            .ok (response, st3)

/-- A citation record as appended by `AgentContext.add_citation`
(src/agno_zendesk/multi_agent/core/agent_interface.py lines 61-69);
the `created_at` timestamp is elided. -/
structure Citation where
  id : Nat
  source : String
  content : String
  metadata : List (String × String) := []
deriving DecidableEq

/-- An error record as appended by `AgentContext.add_error`
(src/agno_zendesk/multi_agent/core/agent_interface.py lines 71-78);
the timestamp is elided. -/
structure ErrorEntry where
  agent_id : String
  error_message : String
  exception : Option String := none
deriving DecidableEq

/-- `AgentContext` (src/agno_zendesk/multi_agent/core/agent_interface.py lines 15-45):
the shared pipeline context.  `agent_states` and the `created_at`/`updated_at`
timestamps are elided (no verified operation reads them). -/
structure AgentContext where
  query : String := ""
  conversation_id : String := ""
  metadata : List (String × String) := []
  short_term_memory : List (List (String × String)) := []
  results : List (String × String) := []
  citations : List Citation := []
  errors : List ErrorEntry := []
deriving DecidableEq

/-- `AgentContext.add_citation`: the new citation's id is `len(self.citations) + 1`. -/
def AgentContext.add_citation (c : AgentContext) (source content : String)
    (metadata : List (String × String)) : AgentContext :=
  { c with citations := c.citations ++
      [{ id := c.citations.length + 1, source := source, content := content,
         metadata := metadata }] }

/-- `AgentContext.add_error`. -/
def AgentContext.add_error (c : AgentContext) (agent_id error_message : String)
    (exception : Option String := none) : AgentContext :=
  { c with errors := c.errors ++
      [{ agent_id := agent_id, error_message := error_message, exception := exception }] }

/-- A fresh `AgentContext` as built by `AgentContext.__init__` with a query,
conversation id and metadata. -/
def newAgentContext (query conversation_id : String)
    (metadata : List (String × String) := []) : AgentContext :=
  { query := query, conversation_id := conversation_id, metadata := metadata }

/-- A pipeline-flavor agent (src/agno_zendesk/multi_agent/core/agent_interface.py,
class Agent): identity fields plus the three behavior hooks.  `can_handle` and
`process` are async methods that may raise (`Except.error` models the exception's
string); `handle_error` is the error hook, whose default implementation
(lines 165-177) adds an error to the context. -/
structure MAgent where
  agent_id : String
  name : String
  role : String
  can_handle : AgentContext → Except String Bool
  process : AgentContext → Except String AgentContext
  handle_error : AgentContext → String → Except String AgentContext

/-- The default `Agent.handle_error` body. -/
def defaultHandleError (agent_id name : String) :
    AgentContext → String → Except String AgentContext :=
  fun context _error => .ok (context.add_error agent_id ("Error in " ++ name ++ " agent"))

/-- The multi-agent registry (src/agno_zendesk/multi_agent/registry/agent_registry.py):
`agents` is an insertion-ordered dict; `get_agent` is `self.agents.get(agent_id)`. -/
structure MRegistry where
  agents : List (String × MAgent) := []

/-- `AgentRegistry.get_agent` (multi-agent flavor). -/
def MRegistry.get_agent (reg : MRegistry) (agent_id : String) : Option MAgent :=
  dictLookup reg.agents agent_id

/-- `AgentOrchestrator.execute_single_agent`
(src/agno_zendesk/multi_agent/orchestration/orchestrator.py lines 40-108): a refusal
records an error and returns the context; a successful `process` returns its result;
an exception from `can_handle` or `process` is routed to the agent's `handle_error`
hook, and if the hook itself raises, both errors are recorded on the context.  The
telemetry `execution_history` log is elided (write-only for these claims). -/
def execute_single_agent (agent : MAgent) (context : AgentContext) : AgentContext :=
  let onError := fun (e : String) =>
    match agent.handle_error context e with
    | .ok updated => updated
    | .error he =>
      context.add_error agent.agent_id
        ("Failed to execute and handle error: " ++ e ++ ". Handler error: " ++ he)
  match agent.can_handle context with
  | .error e => onError e
  | .ok false =>
    context.add_error agent.agent_id ("Agent " ++ agent.name ++ " refused to handle context")
  | .ok true =>
    match agent.process context with
    | .ok updated => updated
    | .error e => onError e

/-- The agent-id resolution loop of `AgentOrchestrator.execute_agents` (lines 129-137):
unknown ids are recorded as context errors and skipped. -/
def resolveAgents (reg : MRegistry) (agent_ids : List String) (context : AgentContext) :
    List MAgent × AgentContext :=
  agent_ids.foldl
    (fun acc agent_id =>
      match reg.get_agent agent_id with
      | some a => (acc.1 ++ [a], acc.2)
      | none => (acc.1, acc.2.add_error "orchestrator" ("Agent " ++ agent_id ++ " not found")))
    ([], context)

/-- The per-agent context copy made for parallel execution (lines 156-163): a fresh
`AgentContext` sharing query, conversation id and (copied) metadata, with the
short-term memory copied over; results, citations and errors start empty. -/
def copyForParallel (context : AgentContext) : AgentContext :=
  { query := context.query, conversation_id := context.conversation_id,
    metadata := context.metadata, short_term_memory := context.short_term_memory }

/-- The merge loop of parallel `execute_agents` (lines 181-194): for each (agent,
result-context) pair in task order, memory entries, citations and errors are
concatenated onto the original and each result key is stored under
`{agent_id}_{key}`. -/
def mergeParallel (context : AgentContext) (agent_results : List (MAgent × AgentContext)) :
    AgentContext :=
  agent_results.foldl
    (fun c pr =>
      { c with
          short_term_memory := c.short_term_memory ++ pr.2.short_term_memory,
          results := pr.2.results.foldl
            (fun r kv => dictInsert r (pr.1.agent_id ++ "_" ++ kv.1) kv.2) c.results,
          citations := c.citations ++ pr.2.citations,
          errors := c.errors ++ pr.2.errors })
    context

/-- `AgentOrchestrator.execute_agents`
(src/agno_zendesk/multi_agent/orchestration/orchestrator.py lines 110-199).
Sequential mode threads the same context through each resolved agent; parallel mode
runs each resolved agent on its own copy and merges the copies back in task order
(tasks are created, and awaited, in the declared agent-list order). -/
def execute_agents (reg : MRegistry) (agent_ids : List String) (context : AgentContext)
    (sequential : Bool) : AgentContext :=
  if agent_ids.isEmpty then context
  else
    let resolved := resolveAgents reg agent_ids context
    let agents := resolved.1
    let context1 := resolved.2
    if agents.isEmpty then context1
    else if sequential then
      agents.foldl (fun c a => execute_single_agent a c) context1
    else
      mergeParallel context1
        (agents.map (fun a => (a, execute_single_agent a (copyForParallel context1))))

/-- The `await`ing loop of parallel `execute_agents` (lines 171-176) under an explicit
completion schedule: `arrived` lists each task's (index, result) pair in the order the
concurrent tasks happened to finish; the loop nevertheless collects
`agent_results` by awaiting the tasks in their creation (declared-list) order, i.e. it
retrieves each index's result in turn. -/
def awaitInDeclaredOrder (n : Nat) (arrived : List (Nat × (MAgent × AgentContext))) :
    List (MAgent × AgentContext) :=
  (List.range n).filterMap (fun i => (arrived.find? (fun p => p.1 = i)).map (·.2))

/-- Parallel `execute_agents` with the completion schedule made explicit: the tasks
(pure per-agent runs on private context copies) finish in an arbitrary order recorded
by `arrived`, and the merge consumes them in declared order. -/
def execute_agents_parallel_arrival (reg : MRegistry) (agent_ids : List String)
    (context : AgentContext) (arrived : List (Nat × (MAgent × AgentContext))) :
    AgentContext :=
  if agent_ids.isEmpty then context
  else
    let resolved := resolveAgents reg agent_ids context
    let agents := resolved.1
    let context1 := resolved.2
    if agents.isEmpty then context1
    else
      mergeParallel context1 (awaitInDeclaredOrder agents.length arrived)

/-- The task list of a parallel `execute_agents` call: each resolved agent paired with
the result of running it on its private copy of the post-resolution context. -/
def parallelTaskResults (reg : MRegistry) (agent_ids : List String)
    (context : AgentContext) : List (MAgent × AgentContext) :=
  let resolved := resolveAgents reg agent_ids context
  resolved.1.map (fun a => (a, execute_single_agent a (copyForParallel resolved.2)))

/-- `AgentRegistry.remove_agent_instance` (src/backend/agent_registry.py lines 309-324). -/
def remove_agent_instance (r : RegistryB) (instance_id : String) : Bool × RegistryB :=
  if (dictLookup r.agent_instances instance_id).isNone then (false, r)
  else (true, { r with agent_instances := dictErase r.agent_instances instance_id })

/-- The tie-breaking rule of the spec, one scan step: a candidate `t` (earlier in
registration order) is displaced only by a strictly higher-priority later match. -/
def specBetter (p : HandoffTrigger → Bool) (t : HandoffTrigger)
    (rest : Option HandoffTrigger) : Option HandoffTrigger :=
  if p t then
    match rest with
    | none => some t
    | some b => if t.priority < b.priority then some b else some t
  else rest

/-- Modelled from the spec: "`evaluate(agentId, context)` must return the targetAgentId
of the highest-priority matching trigger when multiple triggers match; ties preserve
registration order.  No match ⇒ no handoff."  Scanning the triggers in registration
order, the winner is the matching trigger of maximal priority, the earliest such
in case of ties, and `none` when no trigger matches. -/
def specWinningTrigger (p : HandoffTrigger → Bool) : List HandoffTrigger → Option HandoffTrigger
  | [] => none
  | t :: ts => specBetter p t (specWinningTrigger p ts)

/-- Triggers in descending priority order. -/
def SortedDescPriority (l : List HandoffTrigger) : Prop :=
  l.Pairwise (fun a b => b.priority ≤ a.priority)

/-- Key consistency of the agent-type dict: every entry is stored under its own
metadata id (`self._agent_types[metadata.id] = metadata`). -/
def TypesKeyInv (types : List (String × AgentTypeEntry)) : Prop :=
  ∀ p ∈ types, p.2.metadata.id = p.1

/-- No stored agent type carries a trigger targeting itself (what
`_validate_agent_metadata` enforces before storing). -/
def NoSelfTargetInv (types : List (String × AgentTypeEntry)) : Prop :=
  ∀ p ∈ types, ∀ t ∈ p.2.metadata.handoff_triggers, t.target_agent_id ≠ p.2.metadata.id

/-- Transitive reachability along `requires` edges: from the ids in `start`, following
the `requires` list of any registered agent type reached. -/
inductive RequiresReaches (types : List (String × AgentTypeEntry)) (start : List String) :
    String → Prop where
  | base (a : String) : a ∈ start → RequiresReaches types start a
  | step (b a : String) (e : AgentTypeEntry) : RequiresReaches types start b →
      dictLookup types b = some e → a ∈ e.metadata.requires → RequiresReaches types start a

/-- Registry states reachable from a fresh `AgentRegistry()` through its mutating
operations. -/
inductive ReachableB : RegistryB → Prop where
  | empty : ReachableB {}
  | register (r : RegistryB) (md : AgentMetadata) (cls : AgentClass) (r' : RegistryB) :
      ReachableB r → register_agent_type r md cls = .ok r' → ReachableB r'
  | unregister (r : RegistryB) (agent_id : String) :
      ReachableB r → ReachableB (unregister_agent_type r agent_id).2
  | instantiate (r : RegistryB) (config : AgentConfig) (iid : String) (r' : RegistryB) :
      ReachableB r → instantiate_agent r config = .ok (iid, r') → ReachableB r'
  | removeInstance (r : RegistryB) (instance_id : String) :
      ReachableB r → ReachableB (remove_agent_instance r instance_id).2

/-- The session's handoff audit log (the handoff manager's history for this session
id). -/
def sessionAudit (st : SessState) : List HandoffContext :=
  (dictLookup st.handoff_history st.session.session_id).getD []

/-- The 1-indexing invariant of the spec's citation list: the i-th citation (1-based)
has id i, i.e. the ids read `1, 2, ..., n` in list order. -/
def citationIdsWellIndexed (c : AgentContext) : Prop :=
  c.citations.map (·.id) = List.range' 1 c.citations.length

/-!  Concrete fixtures used by witnesses and counterexamples.  -/

/-- A condition-function resolver that always fails (models `importlib` resolution
raising for every name). -/
def noCondEval : String → CtxDict → Option Bool := fun _ _ => none

/-- A tiny concrete regex engine for witnesses: a pattern matches exactly the equal
message. -/
def eqSearch : String → String → Bool := fun pat s => pat == s

/-- Fixture behavior replying "from a". -/
def behA : AgentBehavior := ⟨fun _ _ => .ok { message := some "from a" }⟩

/-- Fixture behavior replying "from b". -/
def behB : AgentBehavior := ⟨fun _ _ => .ok { message := some "from b" }⟩

/-- Fixture metadata for agent type "a" (all defaults: singleton). -/
def mdA : AgentMetadata := { id := "a" }

/-- Fixture metadata for agent type "b". -/
def mdB : AgentMetadata := { id := "b" }

/-- Fixture class constructing `behA`. -/
def clsA : AgentClass := fun _ => .ok behA

/-- Fixture class constructing `behB`. -/
def clsB : AgentClass := fun _ => .ok behB

/-- Fixture registry: types "a" and "b" registered, one live instance `a_1` of type
"a". -/
def regAB : RegistryB :=
  { agent_types := [("a", ⟨mdA, clsA⟩), ("b", ⟨mdB, clsB⟩)],
    agent_instances := [("a_1", ⟨mdA, "a_1", behA⟩)] }

/-- Fixture session state: active agent "a" with cached instance id `a_1`. -/
def stC2 : SessState :=
  { session := { session_id := "s", active_agent_id := some "a",
                 active_agent_instance_id := some "a_1" },
    registry := regAB, handoff_history := [] }

/-- Fixture session state: active agent id "a" but an empty registry. -/
def stC9 : SessState :=
  { session := { session_id := "s", active_agent_id := some "a" },
    registry := {}, handoff_history := [] }

/-- Fixture pipeline agent that adds one citation. -/
def citA : MAgent :=
  ⟨"ca", "CitA", "research", fun _ => .ok true,
    fun c => .ok (c.add_citation "A" "acontent" []), defaultHandleError "ca" "CitA"⟩

/-- Fixture pipeline agent that adds one citation. -/
def citB : MAgent :=
  ⟨"cb", "CitB", "research", fun _ => .ok true,
    fun c => .ok (c.add_citation "B" "bcontent" []), defaultHandleError "cb" "CitB"⟩

/-- Fixture multi-agent registry with the two citation-adding agents. -/
def regC8 : MRegistry := { agents := [("ca", citA), ("cb", citB)] }

/-- Fixture metadata for "a" carrying three keyword triggers: priorities 1, 2 and 2. -/
def mdTrig : AgentMetadata :=
  { id := "a",
    handoff_triggers :=
      [ { target_agent_id := "b", description := "low", priority := 1,
          keyword_patterns := some ["hello"] },
        { target_agent_id := "c", description := "high", priority := 2,
          keyword_patterns := some ["hello"] },
        { target_agent_id := "d", description := "tie", priority := 2,
          keyword_patterns := some ["hello"] } ] }

/-- Fixture registry holding `mdTrig`. -/
def regTrig : RegistryB := { agent_types := [("a", ⟨mdTrig, clsA⟩)] }

/-- Fixture registry with a registered type "b" that requires "a". -/
def regCyc : RegistryB :=
  { agent_types := [("b", ⟨{ id := "b", requires := ["a"] }, clsB⟩)] }

/-- Fixture metadata whose registration closes the requires cycle a → b → a. -/
def mdCycA : AgentMetadata := { id := "a", requires := ["b"] }

/-- Fixture behavior whose `process_message` always raises. -/
def behErr : AgentBehavior := ⟨fun _ _ => .error "boom"⟩

/-- Fixture registry for the error-handling scenarios: type "a" with a live erroring
instance `a_1`. -/
def regErr : RegistryB :=
  { agent_types := [("a", ⟨mdA, fun _ => .ok behErr⟩)],
    agent_instances := [("a_1", ⟨mdA, "a_1", behErr⟩)] }

/-- Fixture session state over `regErr` with the erroring instance cached. -/
def stErr : SessState :=
  { session := { session_id := "s", active_agent_id := some "a",
                 active_agent_instance_id := some "a_1" },
    registry := regErr, handoff_history := [] }

/-- Fixture session state with no active agent, over `regAB`. -/
def stFresh : SessState :=
  { session := { session_id := "s" }, registry := regAB, handoff_history := [] }

/-!  Helper lemmas about the stable priority sort and the spec's winning-trigger
selection.  -/

lemma mem_insertByPriority {x t : HandoffTrigger} {l : List HandoffTrigger} :
    x ∈ insertByPriority t l ↔ x = t ∨ x ∈ l := by
  induction l with
  | nil => simp [insertByPriority]
  | cons u us ih =>
    simp only [insertByPriority]
    split
    · simp [List.mem_cons]
    · simp [List.mem_cons, ih]
      tauto

lemma sortedDesc_insertByPriority {t : HandoffTrigger} {l : List HandoffTrigger}
    (h : SortedDescPriority l) : SortedDescPriority (insertByPriority t l) := by
  induction l with
  | nil =>
    simp [insertByPriority, SortedDescPriority]
  | cons u us ih =>
    unfold SortedDescPriority at h ⊢
    rw [List.pairwise_cons] at h
    simp only [insertByPriority]
    split
    · rename_i hle
      rw [List.pairwise_cons]
      refine ⟨?_, ?_⟩
      · intro x hx
        rcases List.mem_cons.mp hx with hx | hx
        · subst hx; exact hle
        · exact le_trans (h.1 x hx) hle
      · rw [List.pairwise_cons]
        exact h
    · rename_i hgt
      rw [List.pairwise_cons]
      refine ⟨?_, ih h.2⟩
      intro x hx
      rcases mem_insertByPriority.mp hx with hx | hx
      · subst hx; omega
      · exact h.1 x hx

lemma sortedDesc_sortByPriorityDesc (l : List HandoffTrigger) :
    SortedDescPriority (sortByPriorityDesc l) := by
  induction l with
  | nil => simp [sortByPriorityDesc, SortedDescPriority]
  | cons t ts ih => exact sortedDesc_insertByPriority ih

lemma mem_sortByPriorityDesc {x : HandoffTrigger} {l : List HandoffTrigger} :
    x ∈ sortByPriorityDesc l ↔ x ∈ l := by
  induction l with
  | nil => simp [sortByPriorityDesc]
  | cons t ts ih => simp [sortByPriorityDesc, mem_insertByPriority, ih]

lemma specWinningTrigger_mem {p : HandoffTrigger → Bool} :
    ∀ {l : List HandoffTrigger} {b : HandoffTrigger},
      specWinningTrigger p l = some b → b ∈ l := by
  intro l
  induction l with
  | nil => intro b h; simp [specWinningTrigger] at h
  | cons t ts ih =>
    intro b h
    unfold specWinningTrigger specBetter at h
    split at h
    · split at h
      · cases h; exact List.mem_cons_self _ _
      · rename_i c hc
        split at h
        · cases h; exact List.mem_cons_of_mem _ (ih hc)
        · cases h; exact List.mem_cons_self _ _
    · exact List.mem_cons_of_mem _ (ih h)

lemma find?_eq_specWinning_of_sorted {p : HandoffTrigger → Bool} :
    ∀ {l : List HandoffTrigger}, SortedDescPriority l →
      l.find? p = specWinningTrigger p l := by
  intro l
  induction l with
  | nil => intro _; simp [specWinningTrigger]
  | cons t ts ih =>
    intro h
    unfold SortedDescPriority at h
    rw [List.pairwise_cons] at h
    by_cases hpt : p t
    · rw [List.find?_cons_of_pos _ hpt]
      unfold specWinningTrigger specBetter
      rw [if_pos hpt]
      cases hr : specWinningTrigger p ts with
      | none => rfl
      | some b =>
        have hb : b ∈ ts := specWinningTrigger_mem hr
        have hble : b.priority ≤ t.priority := h.1 b hb
        have hnlt : ¬ t.priority < b.priority := by omega
        simp [hnlt]
    · rw [List.find?_cons_of_neg _ hpt]
      unfold specWinningTrigger specBetter
      rw [if_neg hpt]
      exact ih h.2

lemma specBetter_comm {p : HandoffTrigger → Bool} {t u : HandoffTrigger}
    (hlt : t.priority < u.priority) (r : Option HandoffTrigger) :
    specBetter p u (specBetter p t r) = specBetter p t (specBetter p u r) := by
  have hut : ¬ u.priority < t.priority := by omega
  rcases r with _ | b
  · cases hpt : p t <;> cases hpu : p u <;>
      simp [specBetter, hpt, hpu, hlt, hut]
  · by_cases htb : t.priority < b.priority <;> by_cases hub : u.priority < b.priority <;>
      cases hpt : p t <;> cases hpu : p u <;>
      simp [specBetter, hpt, hpu, htb, hub, hlt, hut] <;> omega

lemma specWinning_insertByPriority (p : HandoffTrigger → Bool) (t : HandoffTrigger)
    (l : List HandoffTrigger) :
    specWinningTrigger p (insertByPriority t l) =
      specBetter p t (specWinningTrigger p l) := by
  induction l with
  | nil => rfl
  | cons u us ih =>
    simp only [insertByPriority]
    split
    · rfl
    · rename_i hgt
      have hlt : t.priority < u.priority := by omega
      show specBetter p u (specWinningTrigger p (insertByPriority t us)) =
        specBetter p t (specBetter p u (specWinningTrigger p us))
      rw [ih]
      exact specBetter_comm hlt _

lemma specWinning_sortByPriorityDesc (p : HandoffTrigger → Bool)
    (l : List HandoffTrigger) :
    specWinningTrigger p (sortByPriorityDesc l) = specWinningTrigger p l := by
  induction l with
  | nil => rfl
  | cons t ts ih =>
    show specWinningTrigger p (insertByPriority t (sortByPriorityDesc ts)) = _
    rw [specWinning_insertByPriority, ih]
    rfl

/-- C1: for every registered agent type and every context, `evaluate_handoff_triggers`
returns the target of the highest-priority matching trigger, ties resolved in favor of
the trigger earliest in the metadata's registration order (the source's stable
descending sort followed by a first-match scan), and `none` when no trigger matches —
i.e. it agrees with the spec-modelled `specWinningTrigger` selection. -/
theorem evaluate_handoff_triggers_highest_priority (condEval : String → CtxDict → Option Bool)
    (reSearch : String → String → Bool) (r : RegistryB) (agent_id : String)
    (ctx : CtxDict) (md : AgentMetadata) (h : get_agent_type r agent_id = some md) :
    evaluate_handoff_triggers condEval reSearch r agent_id ctx =
      (specWinningTrigger (fun t => triggerMatches condEval reSearch t ctx)
        md.handoff_triggers).map (·.target_agent_id) := by
  unfold evaluate_handoff_triggers
  rw [h]
  dsimp only
  rw [find?_eq_specWinning_of_sorted (sortedDesc_sortByPriorityDesc _),
    specWinning_sortByPriorityDesc]

/-- Witness for C1: on the concrete `regTrig` registry the evaluation of agent "a"
against the message "hello" picks the priority-2 trigger registered first ("c", not the
equal-priority "d" and not the priority-1 "b"), matching the spec-modelled
selection. -/
theorem evaluate_handoff_triggers_highest_priority_witness :
    evaluate_handoff_triggers noCondEval eqSearch regTrig "a" { message := some "hello" } =
        (specWinningTrigger
          (fun t => triggerMatches noCondEval eqSearch t { message := some "hello" })
          mdTrig.handoff_triggers).map (·.target_agent_id) ∧
      evaluate_handoff_triggers noCondEval eqSearch regTrig "a"
        { message := some "hello" } = some "c" :=
  ⟨evaluate_handoff_triggers_highest_priority noCondEval eqSearch regTrig "a"
      { message := some "hello" } mdTrig (by rfl),
    by decide⟩

/-- Frame property of `get_active_agent`: on success it only (possibly) creates an
instance in the registry and caches the new instance id; the session's identity, active
agent, collected data, message history and the handoff audit log are untouched. -/
lemma get_active_agent_frame {st : SessState} {inst : InstanceRec} {st' : SessState}
    (h : get_active_agent st = .ok (inst, st')) :
    st'.handoff_history = st.handoff_history ∧
    st'.session.session_id = st.session.session_id ∧
    st'.session.active_agent_id = st.session.active_agent_id ∧
    st'.session.data = st.session.data ∧
    st'.session.message_history = st.session.message_history := by
  unfold get_active_agent at h
  dsimp only at h
  split at h
  · simp at h
  · split at h
    · rw [Except.ok.injEq, Prod.mk.injEq] at h
      obtain ⟨h1, h2⟩ := h
      subst h2
      exact ⟨rfl, rfl, rfl, rfl, rfl⟩
    · split at h
      · simp at h
      · split at h
        · simp at h
        · rw [Except.ok.injEq, Prod.mk.injEq] at h
          obtain ⟨h1, h2⟩ := h
          subst h2
          exact ⟨rfl, rfl, rfl, rfl, rfl⟩

/-- C2 (code_bug): `perform_handoff` on a session with a prior active agent switches
`active_agent_id` to the target but does NOT reset the cached
`active_agent_instance_id` (the source updates only `self.active_agent_id`, lines
372-373; the reset lives solely in `set_active_agent`), so the source's subsequent
"Get the new agent" step returns the cached previous instance: on `stC2` the handoff
from "a" to "b" leaves the cached instance id `a_1` of type "a" in place and the
post-handoff message is answered by agent "a"'s instance ("from a"). -/
theorem perform_handoff_keeps_stale_instance :
    (perform_handoff stC2 "b" "reason" (some "hello") 7).toOption.map
        (fun p => (p.1.message, p.2.session.active_agent_id,
          p.2.session.active_agent_instance_id)) =
      some (some "from a", some "b", some "a_1") := by
  rfl

/-- C6 (code_bug): the pydantic validator of `HandoffTrigger` consults only
previously-validated fields and never the value being validated, so supplying exactly
one condition mechanism — the keyword trigger the repo's own `test_agent_registry.py`
builds, or the condition-function trigger `form_collector_agent.py` builds — raises
"At least one trigger condition must be specified", while a trigger supplying no
condition mechanism at all is accepted. -/
theorem mkHandoffTrigger_rejects_single_condition :
    mkHandoffTrigger "test_agent_b" "Handoff when user mentions handoff" none none
        (some ["handoff", "transfer"]) none =
      .error "At least one trigger condition must be specified" ∧
    mkHandoffTrigger "email_verifier" "Form collection complete, needs email verification"
        (some 2) (some "backend.agents.form_collector_agent.is_form_complete") none none =
      .error "At least one trigger condition must be specified" ∧
    mkHandoffTrigger "x" "no condition" none none none none =
      .ok { target_agent_id := "x", description := "no condition" } :=
  ⟨rfl, rfl, rfl⟩

/-- C9 (counterexample): an exception raised while resolving the active agent instance
is NOT caught by `handle_message` — `get_active_agent` is called outside the try block
— so on a session whose active agent type is unregistered the call raises instead of
returning the fallback reply. -/
theorem handle_message_resolution_error_propagates :
    handle_message noCondEval eqSearch stC9 "hi" none 0 =
      .error "Failed to instantiate agent a: Agent type a is not registered" := by
  rfl

/-- C9 (amended): an exception raised by the active agent's `process_message` is caught
by `handle_message` and yields the fallback reply ("Sorry, there was an error
processing your request.") with an `error` field, leaving the session's id, active
agent, collected data and audit log intact (only the user message was appended to the
history); exceptions raised while resolving the active agent instance propagate
instead. -/
theorem handle_message_catches_processing_errors
    (condEval : String → CtxDict → Option Bool) (reSearch : String → String → Bool)
    (st : SessState) (message : String) (additional_intents : Option (List String))
    (now : Nat) (inst : InstanceRec) (st1 : SessState) (e : String)
    (hactive : pyTruthyStr st.session.active_agent_id = true)
    (hnoho : ((evaluate_handoff condEval reSearch st.registry
        (st.session.active_agent_id.getD "")
        (handleMessageCtx st message additional_intents)).1
      && pyTruthyStr (evaluate_handoff condEval reSearch st.registry
        (st.session.active_agent_id.getD "")
        (handleMessageCtx st message additional_intents)).2.1) = false)
    (hga : get_active_agent st = .ok (inst, st1))
    (hproc : inst.behavior.process_message message
        { handleMessageCtx st message additional_intents with
          message_history :=
            some (appendHistory st1 "user" message now).session.message_history } =
      .error e) :
    handle_message condEval reSearch st message additional_intents now =
      .ok ({ message := some "Sorry, there was an error processing your request.",
             error := some e },
           appendHistory st1 "user" message now) ∧
    (appendHistory st1 "user" message now).session.session_id = st.session.session_id ∧
    (appendHistory st1 "user" message now).session.active_agent_id =
      st.session.active_agent_id ∧
    (appendHistory st1 "user" message now).session.data = st.session.data ∧
    (appendHistory st1 "user" message now).handoff_history = st.handoff_history := by
  have hframe := get_active_agent_frame hga
  refine ⟨?_, hframe.2.1, hframe.2.2.1, hframe.2.2.2.1, hframe.1⟩
  unfold handle_message
  simp only [hactive, Bool.not_true, Bool.false_eq_true, if_false, reduceIte]
  simp only [hnoho, Bool.false_eq_true, if_false, reduceIte]
  rw [hga]
  simp only [hproc]

/-- Witness for the amended C9: on `stErr` (active agent "a" whose cached live instance
raises "boom") `handle_message` returns the fallback reply with the error attached and
the session fields preserved. -/
theorem handle_message_catches_processing_errors_witness :
    (handle_message noCondEval eqSearch stErr "hi" none 3 =
      .ok ({ message := some "Sorry, there was an error processing your request.",
             error := some "boom" },
           appendHistory stErr "user" "hi" 3) ∧
    (appendHistory stErr "user" "hi" 3).session.session_id = stErr.session.session_id ∧
    (appendHistory stErr "user" "hi" 3).session.active_agent_id =
      stErr.session.active_agent_id ∧
    (appendHistory stErr "user" "hi" 3).session.data = stErr.session.data ∧
    (appendHistory stErr "user" "hi" 3).handoff_history = stErr.handoff_history) :=
  handle_message_catches_processing_errors noCondEval eqSearch stErr "hi" none 3
    ⟨mdA, "a_1", behErr⟩ stErr "boom" rfl rfl rfl rfl

/-- Looking up a key just written by `dictInsert` returns the written value. -/
lemma dictLookup_dictInsert_self {α : Type} (l : List (String × α)) (k : String) (v : α) :
    dictLookup (dictInsert l k v) k = some v := by
  unfold dictInsert
  split
  · rename_i hsome
    induction l with
    | nil => simp [dictLookup] at hsome
    | cons p ps ih =>
      by_cases hk : p.1 = k
      · simp [dictLookup, hk]
      · simp only [List.map_cons, if_neg hk]
        rw [dictLookup] at hsome ⊢
        have hstep : List.find? (fun q : String × α => decide (q.1 = k)) (p :: ps)
            = List.find? (fun q : String × α => decide (q.1 = k)) ps :=
          List.find?_cons_of_neg _ (by simp [hk])
        have hstep2 : List.find? (fun q : String × α => decide (q.1 = k))
              (p :: List.map (fun q => if q.1 = k then (k, v) else q) ps)
            = List.find? (fun q : String × α => decide (q.1 = k))
              (List.map (fun q => if q.1 = k then (k, v) else q) ps) :=
          List.find?_cons_of_neg _ (by simp [hk])
        rw [hstep] at hsome
        rw [hstep2]
        exact ih hsome
  · rename_i hnone
    have hnone' : dictLookup l k = none := by
      cases h : dictLookup l k
      · rfl
      · rw [h] at hnone; simp at hnone
    unfold dictLookup at hnone' ⊢
    rw [Option.map_eq_none'] at hnone'
    rw [List.find?_append, hnone']
    simp

/-- C3 (amended): `perform_handoff` with no (Python-truthy) active agent sets the
active agent to the target and appends no audit record; with an active agent it appends
exactly one `HandoffContext` — carrying source, target, session id, reason and the
snapshots of message history and collected data — to that session's audit log, PROVIDED
the source and target agent types are registered; when either is unregistered,
`initiate_handoff` raises and nothing is appended. -/
theorem perform_handoff_audit_discipline (st : SessState) (target reason : String)
    (lm : Option String) (now : Nat) :
    (pyTruthyStr st.session.active_agent_id = false →
      perform_handoff st target reason lm now =
        .ok ({ message := some "Let me help you with that.",
               handoff := some (none, target, reason) },
             { st with session := { st.session with active_agent_id := some target } })) ∧
    (pyTruthyStr st.session.active_agent_id = true →
      (get_agent_type st.registry (st.session.active_agent_id.getD "")).isSome = true →
      (get_agent_type st.registry target).isSome = true →
      ∃ resp st', perform_handoff st target reason lm now = .ok (resp, st') ∧
        sessionAudit st' = sessionAudit st ++
          [{ source_agent_id := st.session.active_agent_id.getD "",
             target_agent_id := target, session_id := st.session.session_id,
             reason := reason, timestamp := now,
             message_history := st.session.message_history,
             collected_data := st.session.data, metadata := [] }] ∧
        st'.session.active_agent_id = some target) := by
  constructor
  · intro hfalse
    unfold perform_handoff
    simp only [hfalse, Bool.not_false, if_true]
  · intro htrue hsrc htgt
    obtain ⟨mdS, hmdS⟩ := Option.isSome_iff_exists.mp hsrc
    obtain ⟨mdT, hmdT⟩ := Option.isSome_iff_exists.mp htgt
    unfold perform_handoff
    simp only [htrue, Bool.not_true, Bool.false_eq_true, if_false, reduceIte]
    unfold initiate_handoff
    simp only [hmdS, hmdT, Option.isNone_some, Bool.false_eq_true, if_false, reduceIte]
    have haudit : dictLookup (dictInsert st.handoff_history st.session.session_id
        ((dictLookup st.handoff_history st.session.session_id).getD [] ++
          [{ source_agent_id := st.session.active_agent_id.getD "",
             target_agent_id := target, session_id := st.session.session_id,
             reason := reason, timestamp := now,
             message_history := st.session.message_history,
             collected_data := st.session.data, metadata := [] }]))
        st.session.session_id = some ((dictLookup st.handoff_history st.session.session_id).getD [] ++
          [{ source_agent_id := st.session.active_agent_id.getD "",
             target_agent_id := target, session_id := st.session.session_id,
             reason := reason, timestamp := now,
             message_history := st.session.message_history,
             collected_data := st.session.data, metadata := [] }]) :=
      dictLookup_dictInsert_self _ _ _
    split
    · -- pyTruthyStr lm = true
      split
      · -- get_active_agent error
        refine ⟨_, _, rfl, ?_, rfl⟩
        unfold sessionAudit
        dsimp only
        rw [haudit]
        rfl
      · -- get_active_agent ok
        rename_i inst st2 hga
        have hframe := get_active_agent_frame hga
        split
        · -- process_message error
          refine ⟨_, _, rfl, ?_, ?_⟩
          · unfold sessionAudit
            rw [hframe.1, hframe.2.1]
            dsimp only
            rw [haudit]
            rfl
          · rw [hframe.2.2.1]
        · -- process_message ok
          split
          · -- message present: appendHistory
            refine ⟨_, _, rfl, ?_, ?_⟩
            · unfold sessionAudit appendHistory
              dsimp only
              rw [hframe.1, hframe.2.1]
              dsimp only
              rw [haudit]
              rfl
            · show st2.session.active_agent_id = some target
              rw [hframe.2.2.1]
          · refine ⟨_, _, rfl, ?_, ?_⟩
            · unfold sessionAudit
              rw [hframe.1, hframe.2.1]
              dsimp only
              rw [haudit]
              rfl
            · rw [hframe.2.2.1]
    · -- lm falsy
      refine ⟨_, _, rfl, ?_, rfl⟩
      unfold sessionAudit
      dsimp only
      rw [haudit]
      rfl
/-- `instantiate_agent` never changes the registered agent types. -/
lemma instantiate_agent_preserves_types {r : RegistryB} {c : AgentConfig} {iid : String}
    {r' : RegistryB} (h : instantiate_agent r c = .ok (iid, r')) :
    r'.agent_types = r.agent_types := by
  unfold instantiate_agent at h
  dsimp only at h
  repeat' split at h
  all_goals try (exact Except.noConfusion h)
  all_goals
    rw [Except.ok.injEq, Prod.mk.injEq] at h
    obtain ⟨h1, h2⟩ := h
    subst h2
    rfl

/-- C7: for an agent type whose stored metadata has `singleton = true` (in a registry
whose type dict stores every entry under its own metadata id), once a first
`instantiate_agent` call succeeded with instance id `iid` and that instance was not
removed, a second call for the same `agent_id` — whatever `instance_id` its config
supplies — returns the same `iid` and leaves the registry unchanged (no new
construction). -/
theorem instantiate_singleton_idempotent (r : RegistryB) (c1 c2 : AgentConfig)
    (iid : String) (r1 : RegistryB) (md : AgentMetadata)
    (hkeys : TypesKeyInv r.agent_types)
    (h1 : instantiate_agent r c1 = .ok (iid, r1))
    (hmd : get_agent_type r1 c1.agent_id = some md)
    (hsing : md.singleton = true)
    (hagid : c2.agent_id = c1.agent_id) :
    instantiate_agent r1 c2 = .ok (iid, r1) := by
  have htypes : r1.agent_types = r.agent_types := instantiate_agent_preserves_types h1
  unfold get_agent_type at hmd
  rw [htypes] at hmd
  rw [Option.map_eq_some'] at hmd
  obtain ⟨entry, hentry, hmeta⟩ := hmd
  have hkey : entry.metadata.id = c1.agent_id := by
    unfold dictLookup at hentry
    rw [Option.map_eq_some'] at hentry
    obtain ⟨q, hq, hq2⟩ := hentry
    have hqmem := List.mem_of_find?_eq_some hq
    have hq1 : q.1 = c1.agent_id := by
      have := List.find?_some hq
      exact of_decide_eq_true this
    rw [← hq1, ← hq2]
    exact hkeys q hqmem
  have hsingleton : entry.metadata.singleton = true := by rw [hmeta]; exact hsing
  unfold instantiate_agent at h1
  dsimp only at h1
  rw [hentry] at h1
  dsimp only at h1
  simp only [hsingleton, reduceIte] at h1
  unfold instantiate_agent
  dsimp only
  rw [hagid, htypes, hentry]
  dsimp only
  simp only [hsingleton, reduceIte]
  cases hfind : r.agent_instances.find? (fun p => p.2.agent_metadata.id = c1.agent_id) with
  | some q =>
    rw [hfind] at h1
    dsimp only at h1
    rw [Except.ok.injEq, Prod.mk.injEq] at h1
    obtain ⟨hiid, hr1⟩ := h1
    subst hr1
    rw [hfind]
    dsimp only
    rw [hiid]
  | none =>
    rw [hfind] at h1
    dsimp only at h1
    revert h1
    generalize (if pyTruthyStr c1.instance_id = true then c1.instance_id.getD ""
        else c1.agent_id ++ "_" ++ toString (r.agent_instances.length + 1)) = X
    intro h1
    split at h1
    · exact Except.noConfusion h1
    · split at h1
      · exact Except.noConfusion h1
      · rename_i behavior hbeh
        rw [Except.ok.injEq, Prod.mk.injEq] at h1
        obtain ⟨hiid, hr1⟩ := h1
        subst hr1
        dsimp only
        have hfind2 : List.find?
            (fun p : String × InstanceRec => decide (p.2.agent_metadata.id = c1.agent_id))
            (r.agent_instances ++
              [(X, { agent_metadata := entry.metadata, instance_id := X,
                     behavior := behavior })]) =
            some (X, { agent_metadata := entry.metadata, instance_id := X,
                       behavior := behavior }) := by
          rw [List.find?_append, hfind, Option.none_or]
          exact List.find?_cons_of_pos _ (by simp [hkey])
        rw [hfind2]
        dsimp only
        rw [hiid]

/-- C3 (counterexample): `perform_handoff` on a session that HAS an active agent does
not always append an audit record — when the active (source) agent type is not
registered, `initiate_handoff` raises and nothing is appended (same for an unregistered
target): on `stC9` (active agent "a", empty registry) the call raises instead of
appending exactly one `HandoffContext`. -/
theorem perform_handoff_unregistered_appends_nothing :
    perform_handoff stC9 "b" "r" (some "m") 0 =
      .error "Source agent not registered: a" := by
  rfl

/-- Witness for the amended C3: the no-active-agent branch on `stFresh` (initial
assignment, empty audit log) and the active-agent branch on `stC2` (exactly one audit
record carrying source "a", target "b", reason, timestamp and the snapshots). -/
theorem perform_handoff_audit_discipline_witness :
    (perform_handoff stFresh "b" "r" none 5 =
      .ok ({ message := some "Let me help you with that.",
             handoff := some (none, "b", "r") },
           { stFresh with session :=
               { stFresh.session with active_agent_id := some "b" } })) ∧
    (∃ resp st', perform_handoff stC2 "b" "because" (some "hello") 7 = .ok (resp, st') ∧
      sessionAudit st' = sessionAudit stC2 ++
        [{ source_agent_id := stC2.session.active_agent_id.getD "",
           target_agent_id := "b", session_id := stC2.session.session_id,
           reason := "because", timestamp := 7,
           message_history := stC2.session.message_history,
           collected_data := stC2.session.data, metadata := [] }] ∧
      st'.session.active_agent_id = some "b") :=
  ⟨(perform_handoff_audit_discipline stFresh "b" "r" none 5).1 rfl,
   (perform_handoff_audit_discipline stC2 "b" "because" (some "hello") 7).2 rfl rfl rfl⟩

/-- Witness for C7: on `regAB` (singleton type "a" with live instance `a_1`) a repeat
`instantiate_agent` call — even one supplying a different `instance_id` — returns
`a_1` and the unchanged registry. -/
theorem instantiate_singleton_idempotent_witness :
    instantiate_agent regAB { agent_id := "a", instance_id := some "zz" } =
      .ok ("a_1", regAB) :=
  instantiate_singleton_idempotent regAB { agent_id := "a" }
    { agent_id := "a", instance_id := some "zz" } "a_1" regAB mdA
    (by unfold TypesKeyInv; decide) rfl rfl rfl rfl

/-- C8 (counterexample): the 1-indexing invariant does not survive a parallel merge —
each parallel copy starts with an empty citation list, so the copies' citation ids
restart at 1 and the merged list on `regC8` reads ids [1, 1], where position 2 would
need id 2. -/
theorem parallel_merge_breaks_citation_indexing :
    ¬ citationIdsWellIndexed
        (execute_agents regC8 ["ca", "cb"] (newAgentContext "q" "c") false) := by
  unfold citationIdsWellIndexed
  decide

/-- C8 (amended): contexts built by `add_citation` alone are 1-indexed — a fresh
context satisfies the invariant and `add_citation` preserves it (the new citation gets
id `len + 1` at position `len + 1`); the parallel merge concatenates copy-local
citation lists whose ids restart at 1, so the invariant need not survive it. -/
theorem add_citation_preserves_well_indexed (q cid source content : String)
    (c : AgentContext) (md : List (String × String))
    (h : citationIdsWellIndexed c) :
    citationIdsWellIndexed (newAgentContext q cid) ∧
    citationIdsWellIndexed (c.add_citation source content md) := by
  constructor
  · simp [citationIdsWellIndexed, newAgentContext]
  · unfold citationIdsWellIndexed AgentContext.add_citation
    unfold citationIdsWellIndexed at h
    simp only [List.map_append, List.map_cons, List.map_nil, List.length_append,
      List.length_cons, List.length_nil]
    rw [h]
    have h2 : 1 + 1 * c.citations.length = c.citations.length + 1 := by omega
    rw [List.range'_concat, h2]

/-- Collecting the i-th element for each i in range order rebuilds the list. -/
lemma range_filterMap_get? {α : Type} (l : List α) :
    (List.range l.length).filterMap (fun i => l.get? i) = l := by
  induction l with
  | nil => simp
  | cons x xs ih =>
    rw [List.length_cons, List.range_succ_eq_map]
    rw [List.filterMap_cons]
    simp only [List.get?_cons_zero]
    rw [List.filterMap_map]
    have hcomp : ((fun i => (x :: xs).get? i) ∘ Nat.succ) = fun i => xs.get? i := by
      funext i
      simp [List.get?_cons_succ]
    rw [hcomp, ih]

/-- In any permutation of an enumerated list, looking up index `i` finds exactly the
i-th element. -/
lemma find?_lookup_of_perm_enum {β : Type} (results : List β) (arrived : List (Nat × β))
    (hperm : arrived.Perm results.enum) (i : Nat) (b : β)
    (hib : results.get? i = some b) :
    arrived.find? (fun p => p.1 = i) = some (i, b) := by
  have hmem : (i, b) ∈ arrived := by
    rw [hperm.mem_iff, List.mem_enum_iff_get?]
    exact hib
  have hsome : (arrived.find? (fun p => p.1 = i)).isSome = true := by
    rw [List.find?_isSome]
    exact ⟨(i, b), hmem, by simp⟩
  obtain ⟨q, hq⟩ := Option.isSome_iff_exists.mp hsome
  have hq1 : q.1 = i := by
    have := List.find?_some hq
    exact of_decide_eq_true this
  have hqmem : q ∈ results.enum := hperm.mem_iff.mp (List.mem_of_find?_eq_some hq)
  rw [List.mem_enum_iff_get?] at hqmem
  rw [hq1] at hqmem
  rw [hib] at hqmem
  have hq2 : q.2 = b := by injection hqmem.symm
  rw [hq]
  rw [show q = (i, b) from Prod.ext hq1 hq2]

/-- Awaiting the tasks in declared order recovers the task-result list from ANY
completion order (any permutation of the indexed results). -/
lemma awaitInDeclaredOrder_eq (results : List (MAgent × AgentContext))
    (arrived : List (Nat × (MAgent × AgentContext)))
    (hperm : arrived.Perm results.enum) :
    awaitInDeclaredOrder results.length arrived = results := by
  unfold awaitInDeclaredOrder
  have hcongr : ∀ i ∈ List.range results.length,
      ((arrived.find? (fun p => p.1 = i)).map (·.2)) = results.get? i := by
    intro i hi
    rw [List.mem_range] at hi
    rw [List.get?_eq_get hi]
    rw [find?_lookup_of_perm_enum results arrived hperm i _ (List.get?_eq_get hi)]
    rfl
  rw [List.filterMap_congr hcongr]
  exact range_filterMap_get? results
/-- The parallel merge concatenates citations, memory entries and errors in task-list
order onto the original context and folds each copy's results in under
`{agent_id}_{key}` keys. -/
lemma mergeParallel_fields (rs : List (MAgent × AgentContext)) :
    ∀ c : AgentContext,
      (mergeParallel c rs).citations =
        c.citations ++ (rs.map (fun p => p.2.citations)).flatten ∧
      (mergeParallel c rs).short_term_memory =
        c.short_term_memory ++ (rs.map (fun p => p.2.short_term_memory)).flatten ∧
      (mergeParallel c rs).errors =
        c.errors ++ (rs.map (fun p => p.2.errors)).flatten ∧
      (mergeParallel c rs).results =
        rs.foldl (fun r pr => pr.2.results.foldl
          (fun r kv => dictInsert r (pr.1.agent_id ++ "_" ++ kv.1) kv.2) r) c.results := by
  induction rs with
  | nil =>
    intro c
    simp [mergeParallel]
  | cons pr rs ih =>
    intro c
    have hstep : mergeParallel c (pr :: rs) =
        mergeParallel
          { c with
              short_term_memory := c.short_term_memory ++ pr.2.short_term_memory,
              results := pr.2.results.foldl
                (fun r kv => dictInsert r (pr.1.agent_id ++ "_" ++ kv.1) kv.2) c.results,
              citations := c.citations ++ pr.2.citations,
              errors := c.errors ++ pr.2.errors } rs := rfl
    rw [hstep]
    obtain ⟨h1, h2, h3, h4⟩ := ih _
    refine ⟨?_, ?_, ?_, ?_⟩
    · rw [h1]
      simp [List.append_assoc]
    · rw [h2]
      simp [List.append_assoc]
    · rw [h3]
      simp [List.append_assoc]
    · rw [h4, List.foldl_cons]
/-- C4: for every parallel `execute_agents` run, whatever order the per-agent tasks
complete in (any permutation `arrived` of the indexed task results), the awaited merge
equals the canonical declared-order execution, and the merged context's citations,
memory entries and errors are the original's followed by each resolved agent's copy's,
concatenated in declared agent-list order, with each copy's result entries stored under
`{agent_id}_{key}`. -/
theorem parallel_merge_declared_order (reg : MRegistry) (agent_ids : List String)
    (context : AgentContext) (arrived : List (Nat × (MAgent × AgentContext)))
    (hperm : arrived.Perm (parallelTaskResults reg agent_ids context).enum) :
    execute_agents_parallel_arrival reg agent_ids context arrived =
      execute_agents reg agent_ids context false ∧
    (execute_agents reg agent_ids context false).citations =
      (resolveAgents reg agent_ids context).2.citations ++
        ((parallelTaskResults reg agent_ids context).map (fun p => p.2.citations)).flatten ∧
    (execute_agents reg agent_ids context false).short_term_memory =
      (resolveAgents reg agent_ids context).2.short_term_memory ++
        ((parallelTaskResults reg agent_ids context).map
          (fun p => p.2.short_term_memory)).flatten ∧
    (execute_agents reg agent_ids context false).errors =
      (resolveAgents reg agent_ids context).2.errors ++
        ((parallelTaskResults reg agent_ids context).map (fun p => p.2.errors)).flatten ∧
    (execute_agents reg agent_ids context false).results =
      (parallelTaskResults reg agent_ids context).foldl
        (fun r pr => pr.2.results.foldl
          (fun r kv => dictInsert r (pr.1.agent_id ++ "_" ++ kv.1) kv.2) r)
        (resolveAgents reg agent_ids context).2.results := by
  cases hempty : agent_ids.isEmpty with
  | true =>
    have hids : agent_ids = [] := List.isEmpty_iff.mp hempty
    subst hids
    refine ⟨rfl, ?_, ?_, ?_, ?_⟩ <;>
      simp [execute_agents, resolveAgents, parallelTaskResults]
  | false =>
    cases hag : (resolveAgents reg agent_ids context).1.isEmpty with
    | true =>
      have hags : (resolveAgents reg agent_ids context).1 = [] := List.isEmpty_iff.mp hag
      have hexec : execute_agents reg agent_ids context false =
          (resolveAgents reg agent_ids context).2 := by
        unfold execute_agents
        simp only [hempty, Bool.false_eq_true, if_false]
        simp only [hag, if_true]
      have harr : execute_agents_parallel_arrival reg agent_ids context arrived =
          (resolveAgents reg agent_ids context).2 := by
        unfold execute_agents_parallel_arrival
        simp only [hempty, Bool.false_eq_true, if_false]
        simp only [hag, if_true]
      have htask : parallelTaskResults reg agent_ids context = [] := by
        unfold parallelTaskResults
        dsimp only
        rw [hags]
        rfl
      rw [hexec, harr, htask]
      simp
    | false =>
      have hexec : execute_agents reg agent_ids context false =
          mergeParallel (resolveAgents reg agent_ids context).2
            (parallelTaskResults reg agent_ids context) := by
        unfold execute_agents
        simp only [hempty, Bool.false_eq_true, if_false]
        simp only [hag, Bool.false_eq_true, if_false]
        rfl
      have harr : execute_agents_parallel_arrival reg agent_ids context arrived =
          mergeParallel (resolveAgents reg agent_ids context).2
            (awaitInDeclaredOrder (resolveAgents reg agent_ids context).1.length arrived) := by
        unfold execute_agents_parallel_arrival
        simp only [hempty, Bool.false_eq_true, if_false]
        simp only [hag, Bool.false_eq_true, if_false]
      have hlen : (parallelTaskResults reg agent_ids context).length =
          (resolveAgents reg agent_ids context).1.length := by
        unfold parallelTaskResults
        rw [List.length_map]
      have hawait : awaitInDeclaredOrder
            ((resolveAgents reg agent_ids context).1.length) arrived =
          parallelTaskResults reg agent_ids context := by
        rw [← hlen]
        exact awaitInDeclaredOrder_eq _ _ hperm
      obtain ⟨h1, h2, h3, h4⟩ := mergeParallel_fields
        (parallelTaskResults reg agent_ids context)
        (resolveAgents reg agent_ids context).2
      refine ⟨?_, ?_, ?_, ?_, ?_⟩
      · rw [harr, hawait, hexec]
      · rw [hexec]; exact h1
      · rw [hexec]; exact h2
      · rw [hexec]; exact h3
      · rw [hexec]; exact h4
/-- Witness for C4: on `regC8` with the two citation-adding agents and the completion
order REVERSED (agent "cb" finishes first), the merge still equals the declared-order
execution and the merged citations list sources "A" then "B". -/
theorem parallel_merge_declared_order_witness :
    (execute_agents_parallel_arrival regC8 ["ca", "cb"] (newAgentContext "q" "c")
        ((parallelTaskResults regC8 ["ca", "cb"] (newAgentContext "q" "c")).enum.reverse) =
      execute_agents regC8 ["ca", "cb"] (newAgentContext "q" "c") false ∧
    (execute_agents regC8 ["ca", "cb"] (newAgentContext "q" "c") false).citations =
      (resolveAgents regC8 ["ca", "cb"] (newAgentContext "q" "c")).2.citations ++
        ((parallelTaskResults regC8 ["ca", "cb"] (newAgentContext "q" "c")).map
          (fun p => p.2.citations)).flatten ∧
    (execute_agents regC8 ["ca", "cb"] (newAgentContext "q" "c") false).short_term_memory =
      (resolveAgents regC8 ["ca", "cb"] (newAgentContext "q" "c")).2.short_term_memory ++
        ((parallelTaskResults regC8 ["ca", "cb"] (newAgentContext "q" "c")).map
          (fun p => p.2.short_term_memory)).flatten ∧
    (execute_agents regC8 ["ca", "cb"] (newAgentContext "q" "c") false).errors =
      (resolveAgents regC8 ["ca", "cb"] (newAgentContext "q" "c")).2.errors ++
        ((parallelTaskResults regC8 ["ca", "cb"] (newAgentContext "q" "c")).map
          (fun p => p.2.errors)).flatten ∧
    (execute_agents regC8 ["ca", "cb"] (newAgentContext "q" "c") false).results =
      (parallelTaskResults regC8 ["ca", "cb"] (newAgentContext "q" "c")).foldl
        (fun r pr => pr.2.results.foldl
          (fun r kv => dictInsert r (pr.1.agent_id ++ "_" ++ kv.1) kv.2) r)
        (resolveAgents regC8 ["ca", "cb"] (newAgentContext "q" "c")).2.results) ∧
    (execute_agents regC8 ["ca", "cb"] (newAgentContext "q" "c") false).citations.map
      (·.source) = ["A", "B"] :=
  ⟨parallel_merge_declared_order regC8 ["ca", "cb"] (newAgentContext "q" "c")
      ((parallelTaskResults regC8 ["ca", "cb"] (newAgentContext "q" "c")).enum.reverse)
      (List.reverse_perm _),
    by decide⟩

/-- Witness for the amended C8: a fresh context is well-indexed, and adding a second
citation to a context holding one keeps the ids [1, 2]. -/
theorem add_citation_preserves_well_indexed_witness :
    citationIdsWellIndexed (newAgentContext "q0" "c0") ∧
    citationIdsWellIndexed
      (((newAgentContext "q" "c").add_citation "s" "t" []).add_citation "s2" "t2" []) :=
  add_citation_preserves_well_indexed "q0" "c0" "s2" "t2"
    ((newAgentContext "q" "c").add_citation "s" "t" []) []
    (by unfold citationIdsWellIndexed; decide)

/-- Every entry of `dictInsert l k v` is an old entry or the new pair. -/
lemma mem_dictInsert {α : Type} {l : List (String × α)} {k : String} {v : α}
    {p : String × α} (h : p ∈ dictInsert l k v) : p ∈ l ∨ p = (k, v) := by
  unfold dictInsert at h
  split at h
  · rw [List.mem_map] at h
    obtain ⟨q, hq, hfq⟩ := h
    by_cases hk : q.1 = k
    · right
      rw [← hfq]
      simp [hk]
    · left
      rw [← hfq]
      simp [hk]
      exact hq
  · rw [List.mem_append] at h
    rcases h with h | h
    · exact Or.inl h
    · right
      simpa using h

/-- `remove_agent_instance` never changes the registered agent types. -/
lemma remove_agent_instance_types (r : RegistryB) (instance_id : String) :
    (remove_agent_instance r instance_id).2.agent_types = r.agent_types := by
  unfold remove_agent_instance
  split <;> rfl

/-- `unregister_agent_type` only removes type entries, never adds them. -/
lemma unregister_agent_type_sub {r : RegistryB} {agent_id : String} {p : String × AgentTypeEntry}
    (h : p ∈ (unregister_agent_type r agent_id).2.agent_types) : p ∈ r.agent_types := by
  unfold unregister_agent_type at h
  split at h
  · exact h
  · exact List.mem_of_mem_filter h

/-- Every reachable registry stores each agent type under its own metadata id, and no
stored metadata carries a self-targeting handoff trigger (what
`_validate_agent_metadata` enforced when the entry was registered). -/
lemma reachable_types_inv {r : RegistryB} (h : ReachableB r) :
    TypesKeyInv r.agent_types ∧ NoSelfTargetInv r.agent_types := by
  induction h with
  | empty =>
    constructor
    · intro p hp
      simp at hp
    · intro p hp
      simp at hp
  | register r md cls r' hr hreg ih =>
    unfold register_agent_type at hreg
    split at hreg
    · exact Except.noConfusion hreg
    · rename_i u hval
      rw [Except.ok.injEq] at hreg
      subst hreg
      have htrig : ∀ t ∈ md.handoff_triggers, t.target_agent_id ≠ md.id := by
        unfold validate_agent_metadata at hval
        split at hval
        · exact Except.noConfusion hval
        · split at hval
          · exact Except.noConfusion hval
          · rename_i hfind
            intro t ht
            have := List.find?_eq_none.mp hfind t ht
            simpa using this
      constructor
      · intro p hp
        rcases mem_dictInsert hp with hmem | hnew
        · exact ih.1 p hmem
        · subst hnew
          rfl
      · intro p hp
        rcases mem_dictInsert hp with hmem | hnew
        · exact ih.2 p hmem
        · subst hnew
          exact htrig
  | unregister r agent_id hr ih =>
    constructor
    · intro p hp
      exact ih.1 p (unregister_agent_type_sub hp)
    · intro p hp
      exact ih.2 p (unregister_agent_type_sub hp)
  | instantiate r config iid r' hr hinst ih =>
    rw [instantiate_agent_preserves_types hinst]
    exact ih
  | removeInstance r instance_id hr ih =>
    rw [remove_agent_instance_types]
    exact ih

/-- C10: on every registry reachable through the registry's own operations,
`evaluate_handoff_triggers(agentId, context)` never returns `agentId` itself:
registration rejected self-targeting triggers, and evaluation only returns the target
of one of the queried agent's stored triggers. -/
theorem evaluate_handoff_triggers_never_self (condEval : String → CtxDict → Option Bool)
    (reSearch : String → String → Bool) (r : RegistryB) (agent_id : String)
    (ctx : CtxDict) (hr : ReachableB r) :
    evaluate_handoff_triggers condEval reSearch r agent_id ctx ≠ some agent_id := by
  obtain ⟨hkeys, hself⟩ := reachable_types_inv hr
  intro heval
  unfold evaluate_handoff_triggers at heval
  cases hmd : get_agent_type r agent_id with
  | none =>
    rw [hmd] at heval
    simp at heval
  | some md =>
    rw [hmd] at heval
    dsimp only at heval
    rw [Option.map_eq_some'] at heval
    obtain ⟨t, hfind, htgt⟩ := heval
    have htmem : t ∈ md.handoff_triggers :=
      mem_sortByPriorityDesc.mp (List.mem_of_find?_eq_some hfind)
    unfold get_agent_type at hmd
    rw [Option.map_eq_some'] at hmd
    obtain ⟨entry, hentry, hmeta⟩ := hmd
    unfold dictLookup at hentry
    rw [Option.map_eq_some'] at hentry
    obtain ⟨q, hq, hq2⟩ := hentry
    have hqmem := List.mem_of_find?_eq_some hq
    have hq1 : q.1 = agent_id := by
      have := List.find?_some hq
      exact of_decide_eq_true this
    have hid : md.id = agent_id := by
      rw [← hmeta, ← hq2, ← hq1]
      exact hkeys q hqmem
    have hne := hself q hqmem t (by rw [hq2, hmeta]; exact htmem)
    rw [hq2, hmeta, hid] at hne
    exact hne htgt

/-- Witness for C10: the concrete `regTrig` registry is reachable (one successful
registration from empty), and evaluating agent "a" on "hello" does not return "a". -/
theorem evaluate_handoff_triggers_never_self_witness :
    evaluate_handoff_triggers noCondEval eqSearch regTrig "a"
      { message := some "hello" } ≠ some "a" :=
  evaluate_handoff_triggers_never_self noCondEval eqSearch regTrig "a"
    { message := some "hello" }
    (ReachableB.register {} mdTrig clsA regTrig ReachableB.empty (by
      have hwalk : walkRaises ({} : RegistryB).agent_types mdTrig.id [] mdTrig.requires
          = false := by
        rw [walkRaises]
        simp [mdTrig]
      unfold register_agent_type validate_agent_metadata
      rw [hwalk]
      simp only [Bool.false_eq_true, if_false, reduceIte]
      rfl))

/-- Unfolding: an empty worklist terminates the walk without raising. -/
lemma walkRaises_last_none {types : List (String × AgentTypeEntry)} {selfId : String}
    {visited tv : List String} (hlast : tv.getLast? = none) :
    walkRaises types selfId visited tv = false := by
  rw [walkRaises]
  split
  · rfl
  · rename_i a heq
    rw [hlast] at heq
    exact Option.noConfusion heq

/-- Unfolding: popping the agent's own id raises. -/
lemma walkRaises_last_self {types : List (String × AgentTypeEntry)} {selfId : String}
    {visited tv : List String} (hlast : tv.getLast? = some selfId) :
    walkRaises types selfId visited tv = true := by
  rw [walkRaises]
  split
  · rename_i heq
    rw [hlast] at heq
    exact Option.noConfusion heq
  · rename_i a heq
    rw [hlast] at heq
    injection heq with heq2
    subst heq2
    simp

/-- Unfolding: popping an already-visited id just continues. -/
lemma walkRaises_last_mem {types : List (String × AgentTypeEntry)} {selfId : String}
    {visited tv : List String} {a : String} (hlast : tv.getLast? = some a)
    (hne : ¬ a = selfId) (hmem : a ∈ visited) :
    walkRaises types selfId visited tv = walkRaises types selfId visited tv.dropLast := by
  rw [walkRaises]
  split
  · rename_i heq
    rw [hlast] at heq
    exact Option.noConfusion heq
  · rename_i b heq
    rw [hlast] at heq
    injection heq with heq2
    subst heq2
    simp [hne, hmem]

/-- Unfolding: popping a new registered id marks it visited and pushes its requires. -/
lemma walkRaises_last_new_reg {types : List (String × AgentTypeEntry)} {selfId : String}
    {visited tv : List String} {a : String} {e : AgentTypeEntry}
    (hlast : tv.getLast? = some a) (hne : ¬ a = selfId) (hmem : a ∉ visited)
    (hl : dictLookup types a = some e) :
    walkRaises types selfId visited tv =
      walkRaises types selfId (a :: visited) (tv.dropLast ++ e.metadata.requires) := by
  rw [walkRaises]
  split
  · rename_i heq
    rw [hlast] at heq
    exact Option.noConfusion heq
  · rename_i b heq
    rw [hlast] at heq
    injection heq with heq2
    subst heq2
    simp only [hne, hmem, if_false, reduceIte]
    split
    · rename_i e2 heq2
      rw [hl] at heq2
      injection heq2 with heq3
      subst heq3
      rfl
    · rename_i heq2
      rw [hl] at heq2
      exact Option.noConfusion heq2

/-- Unfolding: popping a new unregistered id just marks it visited. -/
lemma walkRaises_last_new_unreg {types : List (String × AgentTypeEntry)} {selfId : String}
    {visited tv : List String} {a : String}
    (hlast : tv.getLast? = some a) (hne : ¬ a = selfId) (hmem : a ∉ visited)
    (hl : dictLookup types a = none) :
    walkRaises types selfId visited tv =
      walkRaises types selfId (a :: visited) tv.dropLast := by
  rw [walkRaises]
  split
  · rename_i heq
    rw [hlast] at heq
    exact Option.noConfusion heq
  · rename_i b heq
    rw [hlast] at heq
    injection heq with heq2
    subst heq2
    simp only [hne, hmem, if_false, reduceIte]
    split
    · rename_i e2 heq2
      rw [hl] at heq2
      exact Option.noConfusion heq2
    · rfl
/-- Reachability is monotone in the start set. -/
lemma requiresReaches_mono {types : List (String × AgentTypeEntry)} {s s' : List String}
    (hsub : ∀ x ∈ s, x ∈ s') {a : String} (h : RequiresReaches types s a) :
    RequiresReaches types s' a := by
  induction h with
  | base a ha => exact RequiresReaches.base a (hsub a ha)
  | step b a e hb hl hmem ih => exact RequiresReaches.step b a e ih hl hmem

/-- From a requires-closed visited set, reachability stays inside the set. -/
lemma requiresReaches_mem_of_closed {types : List (String × AgentTypeEntry)}
    {visited : List String}
    (hclosed : ∀ b ∈ visited, ∀ e, dictLookup types b = some e →
      ∀ x ∈ e.metadata.requires, x ∈ visited)
    {a : String} (h : RequiresReaches types visited a) : a ∈ visited := by
  induction h with
  | base a ha => exact ha
  | step b a e hb hl hmem ih => exact hclosed b ih e hl a hmem

/-- Completeness of the worklist: if the walk finishes without raising, nothing
reachable from `visited ++ to_visit` along requires edges is the agent's own id.  The
invariant threads the fact that every visited registered id has had its requires list
pushed (so its edges lie inside `visited ∪ to_visit`). -/
lemma walkRaises_false_safe (types : List (String × AgentTypeEntry)) (selfId : String) :
    ∀ visited to_visit, walkRaises types selfId visited to_visit = false →
      selfId ∉ visited →
      (∀ b ∈ visited, ∀ e, dictLookup types b = some e →
        ∀ x ∈ e.metadata.requires, x ∈ visited ∨ x ∈ to_visit) →
      ∀ x, RequiresReaches types (visited ++ to_visit) x → x ≠ selfId := by
  intro visited to_visit
  induction visited, to_visit using walkRaises.induct types selfId with
  | case1 visited tv hlast =>
    intro hwalk hnv hinv x hreach hxself
    subst hxself
    have htv : tv = [] := by
      cases htv : tv with
      | nil => rfl
      | cons y ys =>
        rw [htv] at hlast
        simp [List.getLast?_eq_none] at hlast
    subst htv
    have hclosed : ∀ b ∈ visited, ∀ e, dictLookup types b = some e →
        ∀ y ∈ e.metadata.requires, y ∈ visited := by
      intro b hb e he y hy
      rcases hinv b hb e he y hy with hv | hv
      · exact hv
      · simp at hv
    rw [List.append_nil] at hreach
    exact hnv (requiresReaches_mem_of_closed hclosed hreach)
  | case2 visited tv hlast =>
    intro hwalk
    rw [walkRaises_last_self hlast] at hwalk
    exact absurd hwalk (by simp)
  | case3 visited tv a hlast hne hmem ih =>
    intro hwalk hnv hinv x hreach
    have hdecomp : tv.dropLast ++ [a] = tv := List.dropLast_append_getLast? a hlast
    rw [walkRaises_last_mem hlast hne hmem] at hwalk
    have hinv' : ∀ b ∈ visited, ∀ e, dictLookup types b = some e →
        ∀ y ∈ e.metadata.requires, y ∈ visited ∨ y ∈ tv.dropLast := by
      intro b hb e he y hy
      rcases hinv b hb e he y hy with hv | hv
      · exact Or.inl hv
      · rw [← hdecomp] at hv
        rcases List.mem_append.mp hv with hv | hv
        · exact Or.inr hv
        · simp at hv
          subst hv
          exact Or.inl hmem
    refine ih hwalk hnv hinv' x (requiresReaches_mono ?_ hreach)
    intro y hy
    rcases List.mem_append.mp hy with hv | hv
    · exact List.mem_append.mpr (Or.inl hv)
    · rw [← hdecomp] at hv
      rcases List.mem_append.mp hv with hv | hv
      · exact List.mem_append.mpr (Or.inr hv)
      · simp at hv
        subst hv
        exact List.mem_append.mpr (Or.inl hmem)
  | case4 visited tv a hlast hne hmem e hl ih =>
    intro hwalk hnv hinv x hreach
    have hdecomp : tv.dropLast ++ [a] = tv := List.dropLast_append_getLast? a hlast
    rw [walkRaises_last_new_reg hlast hne hmem hl] at hwalk
    have hnv' : selfId ∉ a :: visited := by
      intro hsv
      rcases List.mem_cons.mp hsv with hsv | hsv
      · exact hne hsv.symm
      · exact hnv hsv
    have hinv' : ∀ b ∈ a :: visited, ∀ e2, dictLookup types b = some e2 →
        ∀ y ∈ e2.metadata.requires, y ∈ a :: visited ∨ y ∈ tv.dropLast ++ e.metadata.requires := by
      intro b hb e2 he2 y hy
      rcases List.mem_cons.mp hb with hb | hb
      · subst hb
        rw [hl] at he2
        injection he2 with he3
        subst he3
        exact Or.inr (List.mem_append.mpr (Or.inr hy))
      · rcases hinv b hb e2 he2 y hy with hv | hv
        · exact Or.inl (List.mem_cons.mpr (Or.inr hv))
        · rw [← hdecomp] at hv
          rcases List.mem_append.mp hv with hv | hv
          · exact Or.inr (List.mem_append.mpr (Or.inl hv))
          · simp at hv
            subst hv
            exact Or.inl (List.mem_cons.mpr (Or.inl rfl))
    refine ih hwalk hnv' hinv' x (requiresReaches_mono ?_ hreach)
    intro y hy
    rcases List.mem_append.mp hy with hv | hv
    · exact List.mem_append.mpr (Or.inl (List.mem_cons.mpr (Or.inr hv)))
    · rw [← hdecomp] at hv
      rcases List.mem_append.mp hv with hv | hv
      · exact List.mem_append.mpr (Or.inr (List.mem_append.mpr (Or.inl hv)))
      · simp at hv
        subst hv
        exact List.mem_append.mpr (Or.inl (List.mem_cons.mpr (Or.inl rfl)))
  | case5 visited tv a hlast hne hmem hl ih =>
    intro hwalk hnv hinv x hreach
    have hdecomp : tv.dropLast ++ [a] = tv := List.dropLast_append_getLast? a hlast
    rw [walkRaises_last_new_unreg hlast hne hmem hl] at hwalk
    have hnv' : selfId ∉ a :: visited := by
      intro hsv
      rcases List.mem_cons.mp hsv with hsv | hsv
      · exact hne hsv.symm
      · exact hnv hsv
    have hinv' : ∀ b ∈ a :: visited, ∀ e2, dictLookup types b = some e2 →
        ∀ y ∈ e2.metadata.requires, y ∈ a :: visited ∨ y ∈ tv.dropLast := by
      intro b hb e2 he2 y hy
      rcases List.mem_cons.mp hb with hb | hb
      · subst hb
        rw [hl] at he2
        exact Option.noConfusion he2
      · rcases hinv b hb e2 he2 y hy with hv | hv
        · exact Or.inl (List.mem_cons.mpr (Or.inr hv))
        · rw [← hdecomp] at hv
          rcases List.mem_append.mp hv with hv | hv
          · exact Or.inr hv
          · simp at hv
            subst hv
            exact Or.inl (List.mem_cons.mpr (Or.inl rfl))
    refine ih hwalk hnv' hinv' x (requiresReaches_mono ?_ hreach)
    intro y hy
    rcases List.mem_append.mp hy with hv | hv
    · exact List.mem_append.mpr (Or.inl (List.mem_cons.mpr (Or.inr hv)))
    · rw [← hdecomp] at hv
      rcases List.mem_append.mp hv with hv | hv
      · exact List.mem_append.mpr (Or.inr hv)
      · simp at hv
        subst hv
        exact List.mem_append.mpr (Or.inl (List.mem_cons.mpr (Or.inl rfl)))
/-- C5: whenever a depth-first walk of `requires` edges from the new metadata's
requires list (following the requires lists of already-registered agents) reaches the
new agent's own id, `register_agent_type` raises the circular-dependency
`ValueError` — validation fails before anything is stored, so the registered types are
unchanged (the error return carries no new registry state). -/
theorem register_rejects_circular_requires (r : RegistryB) (md : AgentMetadata)
    (cls : AgentClass)
    (h : RequiresReaches r.agent_types md.requires md.id) :
    register_agent_type r md cls =
      .error ("Circular dependency detected for agent " ++ md.id) := by
  have hwalk : walkRaises r.agent_types md.id [] md.requires = true := by
    by_contra hw
    rw [Bool.not_eq_true] at hw
    have hsafe := walkRaises_false_safe r.agent_types md.id [] md.requires hw
      (by simp) (by intro b hb; simp at hb) md.id (by simpa using h)
    exact hsafe rfl
  unfold register_agent_type validate_agent_metadata
  rw [hwalk]
  rfl

/-- Witness for C5: registering "a" requiring "b" into a registry where "b" requires
"a" is rejected with the circular-dependency error. -/
theorem register_rejects_circular_requires_witness :
    register_agent_type regCyc mdCycA clsA =
      .error ("Circular dependency detected for agent " ++ mdCycA.id) :=
  register_rejects_circular_requires regCyc mdCycA clsA
    (RequiresReaches.step "b" "a" ⟨{ id := "b", requires := ["a"] }, clsB⟩
      (RequiresReaches.base "b" (by simp [mdCycA]))
      (by rfl) (by simp))

end AgnoZendesk
